import Mathlib

/-!
# Verification of the HOS (Hours of Service) planning engine

Shallow embedding of `src/backend/trips/hos_engine.py`.

Conventions of the embedding:
* all times are integer minutes (`ℤ`), as in the Python code;
* Python floats (miles, speeds, coordinates, hours) are modelled as `ℚ`;
* Python's `int(x)` truncation toward zero is `pyInt`;
* the mutable `DriverState` is threaded explicitly through pure functions;
* the `while` loop of `_drive_leg` is `driveLegStep` (one iteration) iterated
  by `driveLegGo` with a fuel argument that provably suffices (the loop
  measure strictly decreases at every iteration, see the theorems below),
  so `driveLeg` computes exactly what the unbounded loop computes;
* `date.today()` (read when `start_date is None`, line 127-129) is modelled
  by the explicit `today` parameter of `computePlan`; civil dates are day
  numbers (`ℤ`).
-/

set_option linter.unusedVariables false

-- ── Enumerations (hos_engine.py lines 38-50) ─────────────────────────

inductive Status where
  | OFF_DUTY
  | SLEEPER
  | DRIVING
  | ON_DUTY_NOT_DRIVING
deriving DecidableEq

inductive StopKind where
  | FUEL
  | BREAK_30
  | OFF_DUTY_10
  | PICKUP
  | DROPOFF
deriving DecidableEq

-- ── Data classes (lines 54-91) ───────────────────────────────────────

/-- One contiguous block on the global timeline (minutes from trip start). -/
structure TimelineEvent where
  start : ℤ
  «end» : ℤ
  status : Status
  label : String := ""
  miles : ℚ := 0
deriving DecidableEq

structure StopEvent where
  kind : StopKind
  global_minute : ℤ
  duration : ℤ
  label : String := ""
  lat : ℚ := 0
  lng : ℚ := 0
deriving DecidableEq

/-- One intra-day segment of a `DaySheet` (the dict built at lines 421-428). -/
structure DaySegment where
  start_minute : ℤ
  end_minute : ℤ
  status : Status
  location_label : String
deriving DecidableEq

structure DaySheet where
  date : ℤ
  segments : List DaySegment
  total_miles : ℚ := 0
deriving DecidableEq

/-- Mutable state tracked as the engine simulates the trip (lines 81-91).
`cycle_minutes` is declared `float` in Python but only ever holds integral
values (it is initialized with `int(...)` and incremented by integer
minutes), so it is modelled as `ℤ`. -/
structure DriverState where
  global_minute : ℤ
  drive_minutes : ℤ
  on_duty_minutes : ℤ
  cumulative_drive : ℤ
  cycle_minutes : ℤ
  miles_since_fuel : ℚ
  timeline : List TimelineEvent
  stops : List StopEvent
deriving DecidableEq

-- ── Constants (lines 24-35) ──────────────────────────────────────────

def DRIVE_LIMIT : ℤ := 11 * 60
def WINDOW_LIMIT : ℤ := 14 * 60
def BREAK_TRIGGER : ℤ := 8 * 60
def BREAK_DURATION : ℤ := 30
def OFF_DUTY_RESET : ℤ := 10 * 60
def CYCLE_LIMIT : ℤ := 70 * 60
def FUEL_INTERVAL_MILES : ℚ := 1000
def FUEL_DURATION : ℤ := 30
def PICKUP_DURATION : ℤ := 60
def DROPOFF_DURATION : ℤ := 60
def AVG_SPEED_MPH : ℚ := 55
def MINUTES_IN_DAY : ℤ := 1440

/-- Python's `int(x)` conversion: truncation toward zero. -/
def pyInt (q : ℚ) : ℤ := if 0 ≤ q then ⌊q⌋ else ⌈q⌉

-- ── Stop inserters (lines 276-383) ───────────────────────────────────

/-- `_insert_break` (lines 276-296): mandatory 30-minute break (Off Duty). -/
def insertBreak (s : DriverState) (label : String) : DriverState :=
  { s with
    stops := s.stops ++ [{ kind := StopKind.BREAK_30, global_minute := s.global_minute,
                           duration := BREAK_DURATION, label := "30-min break — " ++ label }],
    timeline := s.timeline ++ [{ start := s.global_minute, «end» := s.global_minute + BREAK_DURATION,
                                 status := Status.OFF_DUTY, label := "30-min break" }],
    global_minute := s.global_minute + BREAK_DURATION,
    on_duty_minutes := s.on_duty_minutes + BREAK_DURATION,
    cumulative_drive := 0 }

/-- `_insert_reset` (lines 299-322): 10-hour off-duty reset, new duty period. -/
def insertReset (s : DriverState) : DriverState :=
  { s with
    stops := s.stops ++ [{ kind := StopKind.OFF_DUTY_10, global_minute := s.global_minute,
                           duration := OFF_DUTY_RESET, label := "10-hour off-duty reset" }],
    timeline := s.timeline ++ [{ start := s.global_minute, «end» := s.global_minute + OFF_DUTY_RESET,
                                 status := Status.SLEEPER, label := "10-hour sleeper berth reset" }],
    global_minute := s.global_minute + OFF_DUTY_RESET,
    drive_minutes := 0,
    on_duty_minutes := 0,
    cumulative_drive := 0 }

/-- `_insert_fuel_stop` (lines 324-345): fuel stop (On Duty Not Driving). -/
def insertFuelStop (s : DriverState) (label : String) : DriverState :=
  { s with
    stops := s.stops ++ [{ kind := StopKind.FUEL, global_minute := s.global_minute,
                           duration := FUEL_DURATION, label := "Fuel stop — " ++ label }],
    timeline := s.timeline ++ [{ start := s.global_minute, «end» := s.global_minute + FUEL_DURATION,
                                 status := Status.ON_DUTY_NOT_DRIVING, label := "Fuel stop" }],
    global_minute := s.global_minute + FUEL_DURATION,
    on_duty_minutes := s.on_duty_minutes + FUEL_DURATION,
    cycle_minutes := s.cycle_minutes + FUEL_DURATION,
    miles_since_fuel := 0 }

/-- `_insert_on_duty_stop` (lines 348-383): pickup/dropoff stop, with the
pre-reset check `window_remaining < duration`. -/
def insertOnDutyStop (s0 : DriverState) (duration : ℤ) (kind : StopKind) (label : String)
    (lat lng : ℚ) : DriverState :=
  let s := if WINDOW_LIMIT - s0.on_duty_minutes < duration then insertReset s0 else s0
  { s with
    stops := s.stops ++ [{ kind := kind, global_minute := s.global_minute,
                           duration := duration, label := label, lat := lat, lng := lng }],
    timeline := s.timeline ++ [{ start := s.global_minute, «end» := s.global_minute + duration,
                                 status := Status.ON_DUTY_NOT_DRIVING, label := label }],
    global_minute := s.global_minute + duration,
    on_duty_minutes := s.on_duty_minutes + duration,
    cycle_minutes := s.cycle_minutes + duration }

-- ── Leg driver `_drive_leg` (lines 203-273) ──────────────────────────

/-- Loop-carried state of `_drive_leg`: the driver state plus the leg's
remaining miles and minutes. -/
structure LegState where
  st : DriverState
  remaining_miles : ℚ
  remaining_minutes : ℤ
deriving DecidableEq

/-- The five-way `min` computing the drivable chunk before the fuel
adjustment (lines 234-240). -/
def maxDrive0 (st : DriverState) (remaining_minutes : ℤ) : ℤ :=
  min remaining_minutes
    (min (max 0 (DRIVE_LIMIT - st.drive_minutes))
      (min (max 0 (WINDOW_LIMIT - st.on_duty_minutes))
        (min (max 0 (CYCLE_LIMIT - st.cycle_minutes))
          (BREAK_TRIGGER - st.cumulative_drive))))

/-- Effective speed estimate (lines 243-246). -/
def speedOf (remaining_miles : ℚ) (remaining_minutes : ℤ) : ℚ :=
  if 0 < remaining_minutes then remaining_miles / (remaining_minutes : ℚ) * 60
  else AVG_SPEED_MPH

/-- Minutes of driving until the next fuel stop is due (lines 247-248). -/
def minutesUntilFuel (st : DriverState) (remaining_miles : ℚ) (remaining_minutes : ℤ) : ℤ :=
  if 0 < speedOf remaining_miles remaining_minutes then
    pyInt ((FUEL_INTERVAL_MILES - st.miles_since_fuel) / max (speedOf remaining_miles remaining_minutes) 1 * 60)
  else maxDrive0 st remaining_minutes

/-- The final chunk size `max_drive` (lines 234-252), including the
`max(1, minutes_until_fuel)` clamp and the `max_drive <= 0` safety. -/
def chunkSize (st : DriverState) (remaining_miles : ℚ) (remaining_minutes : ℤ) : ℤ :=
  let max_drive1 := min (maxDrive0 st remaining_minutes)
    (max 1 (minutesUntilFuel st remaining_miles remaining_minutes))
  if max_drive1 ≤ 0 then 1 else max_drive1

/-- Proportional miles attribution of a chunk (line 255). -/
def chunkMilesOf (remaining_miles : ℚ) (remaining_minutes : ℤ) (max_drive : ℤ) : ℚ :=
  ((max_drive : ℚ) / ((max remaining_minutes 1 : ℤ) : ℚ)) * remaining_miles

/-- Emitting one `DRIVING` chunk and advancing all counters (lines 254-273). -/
def driveChunk (s : DriverState) (label : String) (max_drive : ℤ) (chunk_miles : ℚ) : DriverState :=
  { s with
    timeline := s.timeline ++ [{ start := s.global_minute, «end» := s.global_minute + max_drive,
                                 status := Status.DRIVING, label := label, miles := chunk_miles }],
    global_minute := s.global_minute + max_drive,
    drive_minutes := s.drive_minutes + max_drive,
    on_duty_minutes := s.on_duty_minutes + max_drive,
    cumulative_drive := s.cumulative_drive + max_drive,
    cycle_minutes := s.cycle_minutes + max_drive,
    miles_since_fuel := s.miles_since_fuel + chunk_miles }

/-- One iteration of the `while remaining_minutes > 0` loop of `_drive_leg`
(lines 208-273).  `none` means the loop exits (minutes consumed, or cycle
exhausted at the `break` of line 213); `some` is the next loop state. -/
def driveLegStep (label : String) (x : LegState) : Option LegState :=
  if x.remaining_minutes ≤ 0 then none
  else if max 0 (CYCLE_LIMIT - x.st.cycle_minutes) ≤ 0 then none
  else if max 0 (WINDOW_LIMIT - x.st.on_duty_minutes) ≤ 0 ∨ max 0 (DRIVE_LIMIT - x.st.drive_minutes) ≤ 0 then
    some { st := insertReset x.st, remaining_miles := x.remaining_miles,
           remaining_minutes := x.remaining_minutes }
  else if BREAK_TRIGGER ≤ x.st.cumulative_drive then
    some { st := insertBreak x.st label, remaining_miles := x.remaining_miles,
           remaining_minutes := x.remaining_minutes }
  else if FUEL_INTERVAL_MILES ≤ x.st.miles_since_fuel then
    some { st := insertFuelStop x.st label, remaining_miles := x.remaining_miles,
           remaining_minutes := x.remaining_minutes }
  else
    some { st := driveChunk x.st label (chunkSize x.st x.remaining_miles x.remaining_minutes)
             (chunkMilesOf x.remaining_miles x.remaining_minutes
               (chunkSize x.st x.remaining_miles x.remaining_minutes)),
           remaining_miles := x.remaining_miles - chunkMilesOf x.remaining_miles x.remaining_minutes
             (chunkSize x.st x.remaining_miles x.remaining_minutes),
           remaining_minutes := x.remaining_minutes - chunkSize x.st x.remaining_miles x.remaining_minutes }

/-- Pending-trigger potential: at most one reset, one break and one fuel
stop can fire between two driving chunks, in the priority order of the
loop, and each inserter clears its own trigger. -/
def phi (s : DriverState) : ℕ :=
  (if max 0 (WINDOW_LIMIT - s.on_duty_minutes) ≤ 0 ∨ max 0 (DRIVE_LIMIT - s.drive_minutes) ≤ 0 then 1 else 0)
  + (if BREAK_TRIGGER ≤ s.cumulative_drive then 2 else 0)
  + (if FUEL_INTERVAL_MILES ≤ s.miles_since_fuel then 2 else 0)

/-- Loop measure: strictly decreases at every `driveLegStep` iteration
(every chunk is ≥ 1 minute; inserters clear their trigger). -/
def legMeasure (x : LegState) : ℕ := 6 * x.remaining_minutes.toNat + phi x.st

/-- Iterate `driveLegStep` with the given fuel.  `driveLeg` supplies
`legMeasure + 1` units of fuel, which is provably sufficient, so this
computes the exact fixpoint of the Python `while` loop. -/
def driveLegGo (label : String) : ℕ → LegState → LegState
  | 0, x => x
  | Nat.succ n, x =>
    match driveLegStep label x with
    | none => x
    | some y => driveLegGo label n y

/-- `_drive_leg` (lines 203-273): simulate driving a leg, inserting
breaks / resets / fuel stops as needed. -/
def driveLeg (s : DriverState) (miles : ℚ) (minutes : ℤ) (label : String) : DriverState :=
  (driveLegGo label
    (legMeasure { st := s, remaining_miles := miles, remaining_minutes := minutes } + 1)
    { st := s, remaining_miles := miles, remaining_minutes := minutes }).st

-- ── Orchestrator helpers ─────────────────────────────────────────────

/-- `int(cycle_used_hours * 60)` at line 131 of `compute_plan`. -/
def initialCycleMinutes (cycle_used_hours : ℚ) : ℤ := pyInt (cycle_used_hours * 60)

/-- The fill of the remainder of the last day with Off Duty
(lines 163-175 of `compute_plan`). -/
def tailFill (s : DriverState) : DriverState :=
  let day_minute := s.global_minute % MINUTES_IN_DAY
  if 0 < day_minute then
    { s with
      timeline := s.timeline ++ [{ start := s.global_minute,
                                   «end» := s.global_minute + (MINUTES_IN_DAY - day_minute),
                                   status := Status.OFF_DUTY, label := "Off Duty" }],
      global_minute := s.global_minute + (MINUTES_IN_DAY - day_minute) }
  else s

/-- `sum(e.end - e.start for e in timeline if e.status == DRIVING)`
(lines 178-180). -/
def drivingSum (tl : List TimelineEvent) : ℤ :=
  tl.foldl (fun acc e => if e.status = Status.DRIVING then acc + (e.«end» - e.start) else acc) 0

-- ── Day-sheet builder `_build_daily_sheets` (lines 385-456) ──────────

/-- End of a timeline: `t` for an empty list, else the last event's end.
`timelineEnd 0 tl` is `timeline[-1].end` whenever `tl` is nonempty. -/
def timelineEnd : ℤ → List TimelineEvent → ℤ
  | t, [] => t
  | _, e :: rest => timelineEnd e.«end» rest

/-- Clip one event to a day window (lines 406-413 and 421-428);
`none` when the event does not overlap the day. -/
def clipEvent (day_start day_end : ℤ) (evt : TimelineEvent) : Option DaySegment :=
  if evt.«end» ≤ day_start ∨ day_end ≤ evt.start then none
  else
    let seg_start := max evt.start day_start - day_start
    let seg_end := min evt.«end» day_end - day_start
    if seg_end ≤ seg_start then none
    else some { start_minute := seg_start, end_minute := seg_end,
                status := evt.status, location_label := evt.label }

/-- The (unmerged) segment list of one day. -/
def daySegments (tl : List TimelineEvent) (day_start day_end : ℤ) : List DaySegment :=
  tl.filterMap (clipEvent day_start day_end)

/-- Mileage prorated over the day slice (lines 415-419). -/
def dayMiles (tl : List TimelineEvent) (day_start day_end : ℤ) : ℚ :=
  tl.foldl (fun acc evt =>
    if evt.«end» ≤ day_start ∨ day_end ≤ evt.start then acc
    else
      let seg_start := max evt.start day_start - day_start
      let seg_end := min evt.«end» day_end - day_start
      if seg_end ≤ seg_start then acc
      else
        let evt_duration := evt.«end» - evt.start
        if 0 < evt_duration ∧ 0 < evt.miles then
          acc + evt.miles * (((seg_end - seg_start : ℤ) : ℚ) / ((evt_duration : ℤ) : ℚ))
        else acc) 0

/-- `_merge_segments` inner loop: `m` is `merged[-1]`. -/
def mergeInto (m : DaySegment) : List DaySegment → List DaySegment
  | [] => [m]
  | s :: rest =>
    if s.status = m.status ∧ s.start_minute = m.end_minute then
      mergeInto { m with end_minute := s.end_minute,
                         location_label := if s.location_label ≠ "" then s.location_label
                                           else m.location_label } rest
    else m :: mergeInto s rest

/-- `_merge_segments` (lines 440-456): merge consecutive segments with the
same status and touching boundaries, preferring the later non-empty label. -/
def mergeSegments : List DaySegment → List DaySegment
  | [] => []
  | s :: rest => mergeInto s rest

/-- Round-half-to-even on `ℚ`, the behaviour of Python's `round`. -/
def roundHalfEven (q : ℚ) : ℤ :=
  if q - ⌊q⌋ < 1 / 2 then ⌊q⌋
  else if 1 / 2 < q - ⌊q⌋ then ⌊q⌋ + 1
  else if ⌊q⌋ % 2 = 0 then ⌊q⌋ else ⌊q⌋ + 1

/-- Python's `round(x, 1)`. -/
def pyRound1 (q : ℚ) : ℚ := (roundHalfEven (q * 10) : ℚ) / 10

/-- `_build_daily_sheets` (lines 385-437): slice the global timeline into
per-day sheets of 1440 minutes each. -/
def buildDailySheets (timeline : List TimelineEvent) (start_date : ℤ) : List DaySheet :=
  if timeline = [] then []
  else
    let total_minutes := timelineEnd 0 timeline
    let num_days := (⌈(total_minutes : ℚ) / (MINUTES_IN_DAY : ℚ)⌉).toNat
    (List.range num_days).map (fun (day_idx : ℕ) =>
      let day_start := (day_idx : ℤ) * MINUTES_IN_DAY
      let day_end := day_start + MINUTES_IN_DAY
      { date := start_date + (day_idx : ℤ),
        segments := mergeSegments (daySegments timeline day_start day_end),
        total_miles := pyRound1 (dayMiles timeline day_start day_end) })

-- ── `compute_plan` (lines 95-199) ────────────────────────────────────

/-- Final output record of `compute_plan` (lines 192-199). -/
structure PlanResult where
  timeline : List TimelineEvent
  stops : List StopEvent
  daily_sheets : List DaySheet
  trip_completed : Bool
  remaining_drive_minutes : ℤ
  planned_fuel_stops : ℤ
deriving DecidableEq

/-- The driver state at the end of the simulation phase of `compute_plan`:
leg 1, pickup, leg 2, dropoff, tail fill (lines 131-175). -/
def finalState (total_miles : ℚ) (total_drive_minutes : ℤ) (cycle_used_hours : ℚ)
    (pickup_label dropoff_label : String) (pickup_coords dropoff_coords : ℚ × ℚ)
    (leg1_miles : Option ℚ) (leg1_minutes : Option ℤ)
    (leg2_miles : Option ℚ) (leg2_minutes : Option ℤ) : DriverState :=
  let s0 : DriverState :=
    { global_minute := 0, drive_minutes := 0, on_duty_minutes := 0, cumulative_drive := 0,
      cycle_minutes := initialCycleMinutes cycle_used_hours, miles_since_fuel := 0,
      timeline := [], stops := [] }
  let leg1 : ℚ × ℤ :=
    match leg1_miles, leg1_minutes with
    | some m, some t => (m, t)
    | _, _ => (total_miles * (3 / 10), pyInt ((total_drive_minutes : ℚ) * (3 / 10)))
  let leg2 : ℚ × ℤ :=
    match leg2_miles, leg2_minutes with
    | some m, some t => (m, t)
    | _, _ => (total_miles - leg1.1, total_drive_minutes - leg1.2)
  let s1 := driveLeg s0 leg1.1 leg1.2 "En route to pickup"
  let s2 := insertOnDutyStop s1 PICKUP_DURATION StopKind.PICKUP pickup_label
    pickup_coords.1 pickup_coords.2
  let s3 := driveLeg s2 leg2.1 leg2.2 "En route to dropoff"
  let s4 := insertOnDutyStop s3 DROPOFF_DURATION StopKind.DROPOFF dropoff_label
    dropoff_coords.1 dropoff_coords.2
  tailFill s4

/-- `compute_plan` with the start date already resolved to a day number. -/
def computePlanWith (total_miles : ℚ) (total_drive_minutes : ℤ) (cycle_used_hours : ℚ)
    (pickup_label dropoff_label : String) (pickup_coords dropoff_coords : ℚ × ℚ)
    (start_date : ℤ) (leg1_miles : Option ℚ) (leg1_minutes : Option ℤ)
    (leg2_miles : Option ℚ) (leg2_minutes : Option ℤ) : PlanResult :=
  let s := finalState total_miles total_drive_minutes cycle_used_hours pickup_label dropoff_label
    pickup_coords dropoff_coords leg1_miles leg1_minutes leg2_miles leg2_minutes
  let actual_driven_minutes := drivingSum s.timeline
  let remaining_drive := max 0 (total_drive_minutes - actual_driven_minutes)
  let num_fuel_needed := max 0 (pyInt (total_miles / FUEL_INTERVAL_MILES))
  let actual_fuel_stops : ℤ := ((s.stops.countP (fun st => decide (st.kind = StopKind.FUEL)) : ℕ) : ℤ)
  { timeline := s.timeline,
    stops := s.stops,
    daily_sheets := buildDailySheets s.timeline start_date,
    trip_completed := decide (remaining_drive ≤ 0),
    remaining_drive_minutes := remaining_drive,
    planned_fuel_stops := max num_fuel_needed actual_fuel_stops }

/-- `compute_plan` (lines 95-199).  `today` models the ambient clock read
`date.today()` performed at lines 127-129 when `start_date is None`. -/
def computePlan (today : ℤ) (total_miles : ℚ) (total_drive_minutes : ℤ) (cycle_used_hours : ℚ)
    (pickup_label dropoff_label : String) (pickup_coords dropoff_coords : ℚ × ℚ)
    (start_date : Option ℤ) (leg1_miles : Option ℚ) (leg1_minutes : Option ℤ)
    (leg2_miles : Option ℚ) (leg2_minutes : Option ℤ) : PlanResult :=
  computePlanWith total_miles total_drive_minutes cycle_used_hours pickup_label dropoff_label
    pickup_coords dropoff_coords (start_date.getD today) leg1_miles leg1_minutes leg2_miles leg2_minutes

-- ── Specification-side definitions and checkers ──────────────────────

/-- Modelled from the spec: §3 "round to nearest integer minute" — the
conversion the spec claims for `cycle_used_hours → cycle_minutes`
(to be compared against `initialCycleMinutes`, which embeds the code). -/
def specCycleMinutes (cycle_used_hours : ℚ) : ℤ := round (cycle_used_hours * 60)

/-- §4.2: prescribed covering duty status of each stop kind. -/
def coverStatus : StopKind → Status
  | StopKind.FUEL => Status.ON_DUTY_NOT_DRIVING
  | StopKind.BREAK_30 => Status.OFF_DUTY
  | StopKind.OFF_DUTY_10 => Status.SLEEPER
  | StopKind.PICKUP => Status.ON_DUTY_NOT_DRIVING
  | StopKind.DROPOFF => Status.ON_DUTY_NOT_DRIVING

/-- Does timeline event `e` cover stop `st` as `[t, t+d)` with the
prescribed status? -/
def coversB (st : StopEvent) (e : TimelineEvent) : Bool :=
  decide (e.start = st.global_minute) && decide (e.«end» = st.global_minute + st.duration)
    && decide (e.status = coverStatus st.kind)

/-- Checks that a timeline is a contiguous chain of positive-length events
beginning at `t`. -/
def chainFromB : ℤ → List TimelineEvent → Bool
  | _, [] => true
  | t, e :: rest => decide (e.start = t) && decide (t < e.«end») && chainFromB e.«end» rest

/-- Scanner for the per-duty-period driving total: the accumulator is the
driving sum since the last 600-minute `SLEEPER` event, and the flag stays
true only if every `DRIVING` event keeps that sum within `limit`. -/
def periodStep (limit : ℤ) (p : Bool × ℤ) (e : TimelineEvent) : Bool × ℤ :=
  if e.status = Status.SLEEPER ∧ e.«end» - e.start = OFF_DUTY_RESET then (p.1, 0)
  else if e.status = Status.DRIVING then
    (p.1 && decide (p.2 + (e.«end» - e.start) ≤ limit), p.2 + (e.«end» - e.start))
  else p

def periodCheck (limit : ℤ) (tl : List TimelineEvent) : Bool × ℤ :=
  tl.foldl (periodStep limit) (true, 0)

/-- Scanner for the 30-minute-break rule: the accumulator is the driving
sum since the last 30-minute `OFF_DUTY` or 600-minute `SLEEPER` event; the
flag stays true only if every `DRIVING` event starts below 480 and keeps
the sum at most 480. -/
def breakStep (p : Bool × ℤ) (e : TimelineEvent) : Bool × ℤ :=
  if (e.status = Status.OFF_DUTY ∧ e.«end» - e.start = BREAK_DURATION)
      ∨ (e.status = Status.SLEEPER ∧ e.«end» - e.start = OFF_DUTY_RESET) then (p.1, 0)
  else if e.status = Status.DRIVING then
    (p.1 && decide (p.2 < BREAK_TRIGGER) && decide (p.2 + (e.«end» - e.start) ≤ BREAK_TRIGGER),
      p.2 + (e.«end» - e.start))
  else p

def breakCheck (tl : List TimelineEvent) : Bool × ℤ :=
  tl.foldl breakStep (true, 0)

/-- Checks that day segments form a contiguous chain from minute `a` to
minute `b`. -/
def segChainB : ℤ → ℤ → List DaySegment → Bool
  | a, b, [] => decide (a = b)
  | a, b, s :: rest => decide (s.start_minute = a) && decide (a < s.end_minute)
      && segChainB s.end_minute b rest

/-- Sum of segment lengths of a day sheet. -/
def segLenSum (l : List DaySegment) : ℤ :=
  l.foldl (fun acc s => acc + (s.end_minute - s.start_minute)) 0

/-- The master invariant maintained by the engine over a `DriverState`:
the timeline is a contiguous chain of positive events from minute 0 whose
end is the current global minute; the per-period and per-break scanners
accept the timeline and their accumulators agree with the corresponding
counters of the state; and every recorded stop is covered by exactly one
timeline event, lies strictly in the past, and has positive duration. -/
structure EngineInv (s : DriverState) : Prop where
  chain : chainFromB 0 s.timeline = true
  endEq : timelineEnd 0 s.timeline = s.global_minute
  perOk : (periodCheck DRIVE_LIMIT s.timeline).1 = true
  perAcc : (periodCheck DRIVE_LIMIT s.timeline).2 = s.drive_minutes
  brkOk : (breakCheck s.timeline).1 = true
  brkAcc : (breakCheck s.timeline).2 = s.cumulative_drive
  stopsCount : ∀ st ∈ s.stops, s.timeline.countP (coversB st) = 1
  stopsPast : ∀ st ∈ s.stops, st.global_minute + st.duration ≤ s.global_minute ∧ 0 < st.duration

-- ── Concrete sample loop states (used to exhibit one loop iteration) ─

/-- A fresh driver state about to drive a 5-minute, 0-mile leg. -/
def sampleLegState : LegState :=
  LegState.mk (DriverState.mk 0 0 0 0 0 0 [] []) 0 5

/-- The loop state after the single 5-minute driving chunk of
`sampleLegState`'s leg. -/
def sampleLegStateNext : LegState :=
  LegState.mk (DriverState.mk 5 5 5 5 5 0 [TimelineEvent.mk 0 5 Status.DRIVING "" 0] []) 0 0

-- ═════════════════════════════════════════════════════════════════════
-- Theorems
-- ═════════════════════════════════════════════════════════════════════

-- ── Timeline chain infrastructure ────────────────────────────────────

theorem timelineEnd_append (t : ℤ) (tl : List TimelineEvent) (e : TimelineEvent) :
    timelineEnd t (tl ++ [e]) = e.«end» := by
  induction tl generalizing t with
  | nil => rfl
  | cons a l ih => simpa [timelineEnd] using ih a.«end»

theorem chainFromB_le (t : ℤ) (tl : List TimelineEvent) (h : chainFromB t tl = true) :
    t ≤ timelineEnd t tl := by
  induction tl generalizing t with
  | nil => simp [timelineEnd]
  | cons a l ih =>
    simp only [chainFromB, Bool.and_eq_true, decide_eq_true_eq] at h
    obtain ⟨⟨ha, hb⟩, hc⟩ := h
    have := ih a.«end» hc
    simp only [timelineEnd]
    omega

theorem chainFromB_mem_bounds {t : ℤ} {tl : List TimelineEvent} (h : chainFromB t tl = true)
    {e : TimelineEvent} (he : e ∈ tl) : e.start < e.«end» ∧ e.«end» ≤ timelineEnd t tl := by
  induction tl generalizing t with
  | nil => cases he
  | cons a l ih =>
    simp only [chainFromB, Bool.and_eq_true, decide_eq_true_eq] at h
    obtain ⟨⟨ha, hb⟩, hc⟩ := h
    rcases List.mem_cons.mp he with rfl | he'
    · refine ⟨by omega, ?_⟩
      have := chainFromB_le e.«end» l hc
      simpa [timelineEnd] using this
    · simpa [timelineEnd] using ih hc he'

theorem chainFromB_append {t : ℤ} {tl : List TimelineEvent} (e : TimelineEvent)
    (h : chainFromB t tl = true) (h1 : e.start = timelineEnd t tl) (h2 : e.start < e.«end») :
    chainFromB t (tl ++ [e]) = true := by
  induction tl generalizing t with
  | nil =>
    simp only [timelineEnd] at h1
    simp only [List.nil_append, chainFromB, Bool.and_eq_true, decide_eq_true_eq, Bool.and_true]
    exact ⟨h1, by omega⟩
  | cons a l ih =>
    simp only [chainFromB, Bool.and_eq_true, decide_eq_true_eq] at h
    obtain ⟨⟨ha, hb⟩, hc⟩ := h
    simp only [List.cons_append, chainFromB, Bool.and_eq_true, decide_eq_true_eq]
    exact ⟨⟨ha, hb⟩, ih hc (by simpa [timelineEnd] using h1)⟩

-- ── Scanner append lemmas ────────────────────────────────────────────

theorem periodCheck_append (limit : ℤ) (tl : List TimelineEvent) (e : TimelineEvent) :
    periodCheck limit (tl ++ [e]) = periodStep limit (periodCheck limit tl) e := by
  simp [periodCheck, List.foldl_append]

theorem breakCheck_append (tl : List TimelineEvent) (e : TimelineEvent) :
    breakCheck (tl ++ [e]) = breakStep (breakCheck tl) e := by
  simp [breakCheck, List.foldl_append]

theorem drivingSum_append (tl : List TimelineEvent) (e : TimelineEvent) :
    drivingSum (tl ++ [e]) = drivingSum tl
      + (if e.status = Status.DRIVING then e.«end» - e.start else 0) := by
  have H : ∀ (l : List TimelineEvent) (a : ℤ),
      l.foldl (fun acc e => if e.status = Status.DRIVING then acc + (e.«end» - e.start) else acc) a
        = a + l.foldl (fun acc e => if e.status = Status.DRIVING then acc + (e.«end» - e.start) else acc) 0 := by
    intro l
    induction l with
    | nil => simp
    | cons b l ih =>
      intro a
      simp only [List.foldl_cons]
      rw [ih, ih (if b.status = Status.DRIVING then 0 + (b.«end» - b.start) else 0)]
      split <;> omega
  simp only [drivingSum, List.foldl_append, List.foldl_cons, List.foldl_nil]
  rw [H]
  split <;> omega

theorem periodStep_fst_of_not_driving (limit : ℤ) (p : Bool × ℤ) (e : TimelineEvent)
    (h : e.status ≠ Status.DRIVING) : (periodStep limit p e).1 = p.1 := by
  unfold periodStep
  split_ifs <;> simp_all

theorem breakStep_fst_of_not_driving (p : Bool × ℤ) (e : TimelineEvent)
    (h : e.status ≠ Status.DRIVING) : (breakStep p e).1 = p.1 := by
  unfold breakStep
  split_ifs <;> simp_all

-- ── Chunk-size bounds ────────────────────────────────────────────────

theorem chunkSize_pos (st : DriverState) (rm : ℚ) (rmin : ℤ) : 1 ≤ chunkSize st rm rmin := by
  simp only [chunkSize]
  split <;> omega

theorem chunkSize_le_remaining (st : DriverState) (rm : ℚ) (rmin : ℤ) (h : 1 ≤ rmin) :
    chunkSize st rm rmin ≤ rmin := by
  simp only [chunkSize]
  split
  · omega
  · have h1 : min (maxDrive0 st rmin) (max 1 (minutesUntilFuel st rm rmin)) ≤ maxDrive0 st rmin :=
      min_le_left _ _
    have h2 : maxDrive0 st rmin ≤ rmin := min_le_left _ _
    omega

theorem chunkSize_drive_bound (st : DriverState) (rm : ℚ) (rmin : ℤ)
    (h : 1 ≤ max 0 (DRIVE_LIMIT - st.drive_minutes)) :
    st.drive_minutes + chunkSize st rm rmin ≤ DRIVE_LIMIT := by
  simp only [chunkSize]
  split
  · omega
  · have h1 : min (maxDrive0 st rmin) (max 1 (minutesUntilFuel st rm rmin)) ≤ maxDrive0 st rmin :=
      min_le_left _ _
    have h2 : maxDrive0 st rmin ≤ max 0 (DRIVE_LIMIT - st.drive_minutes) :=
      le_trans (min_le_right _ _) (min_le_left _ _)
    omega

theorem chunkSize_break_bound (st : DriverState) (rm : ℚ) (rmin : ℤ)
    (h : st.cumulative_drive < BREAK_TRIGGER) :
    st.cumulative_drive + chunkSize st rm rmin ≤ BREAK_TRIGGER := by
  simp only [chunkSize]
  split
  · omega
  · have h1 : min (maxDrive0 st rmin) (max 1 (minutesUntilFuel st rm rmin)) ≤ maxDrive0 st rmin :=
      min_le_left _ _
    have h2 : maxDrive0 st rmin ≤ BREAK_TRIGGER - st.cumulative_drive :=
      le_trans (min_le_right _ _)
        (le_trans (min_le_right _ _) (le_trans (min_le_right _ _) (min_le_right _ _)))
    omega

theorem phi_le_five (s : DriverState) : phi s ≤ 5 := by
  unfold phi
  split_ifs <;> omega

-- ── The loop measure strictly decreases at every iteration ───────────

theorem driveLegStep_decreases (label : String) (x y : LegState)
    (h : driveLegStep label x = some y) : legMeasure y < legMeasure x := by
  unfold driveLegStep at h
  split_ifs at h with h1 h2 h3 h4 h5
  · -- 10-hour reset inserted: the reset trigger clears, the break trigger
    -- clears, the fuel trigger is unchanged
    injection h with h
    subst h
    simp only [legMeasure, phi, insertReset, WINDOW_LIMIT, DRIVE_LIMIT, BREAK_TRIGGER,
      FUEL_INTERVAL_MILES]
    simp only [WINDOW_LIMIT, DRIVE_LIMIT, BREAK_TRIGGER] at h3
    split_ifs <;> omega
  · -- 30-minute break inserted: the break trigger clears, possibly arming
    -- the reset trigger, fuel unchanged
    injection h with h
    subst h
    simp only [legMeasure, phi, insertBreak, WINDOW_LIMIT, DRIVE_LIMIT, BREAK_TRIGGER,
      FUEL_INTERVAL_MILES, BREAK_DURATION]
    simp only [WINDOW_LIMIT, DRIVE_LIMIT, BREAK_TRIGGER] at h3 h4
    split_ifs <;> omega
  · -- fuel stop inserted: the fuel trigger clears, possibly arming the
    -- reset trigger
    injection h with h
    subst h
    simp only [legMeasure, phi, insertFuelStop, WINDOW_LIMIT, DRIVE_LIMIT, BREAK_TRIGGER,
      FUEL_INTERVAL_MILES, FUEL_DURATION]
    simp only [WINDOW_LIMIT, DRIVE_LIMIT, BREAK_TRIGGER, FUEL_INTERVAL_MILES] at h3 h4 h5
    split_ifs <;> first | omega | (exfalso; norm_num at *)
  · -- driving chunk of at least one minute emitted
    injection h with h
    subst h
    have hmd1 : 1 ≤ chunkSize x.st x.remaining_miles x.remaining_minutes := chunkSize_pos _ _ _
    have hmd2 : chunkSize x.st x.remaining_miles x.remaining_minutes ≤ x.remaining_minutes :=
      chunkSize_le_remaining _ _ _ (by omega)
    have hp1 := phi_le_five (driveChunk x.st label
      (chunkSize x.st x.remaining_miles x.remaining_minutes)
      (chunkMilesOf x.remaining_miles x.remaining_minutes
        (chunkSize x.st x.remaining_miles x.remaining_minutes)))
    simp only [legMeasure]
    omega

-- ── The fuel supplied by `driveLeg` is sufficient ────────────────────

/-- Once the fuel exceeds the measure, the loop reaches a genuine exit:
the returned state is a fixpoint of `driveLegStep`.  Hence `driveLeg`
(which supplies `legMeasure + 1` fuel) computes the exact result of the
unbounded Python `while` loop. -/
theorem driveLegGo_fixpoint (label : String) :
    ∀ (n : ℕ) (x : LegState), legMeasure x < n →
      driveLegStep label (driveLegGo label n x) = none := by
  intro n
  induction n with
  | zero => intro x hx; omega
  | succ n ih =>
    intro x hx
    simp only [driveLegGo]
    cases hs : driveLegStep label x with
    | none => rw [hs]
    | some y => exact ih y (by have := driveLegStep_decreases label x y hs; omega)

/-- Any property preserved by one loop iteration is preserved by the
whole loop, whatever the fuel. -/
theorem driveLegGo_pres (label : String) (P : LegState → Prop)
    (hstep : ∀ x y, driveLegStep label x = some y → P x → P y) :
    ∀ (n : ℕ) (x : LegState), P x → P (driveLegGo label n x) := by
  intro n
  induction n with
  | zero => intro x hx; exact hx
  | succ n ih =>
    intro x hx
    simp only [driveLegGo]
    cases hs : driveLegStep label x with
    | none => exact hx
    | some y => exact ih y (hstep x y hs hx)

-- ── Stop-coverage counting ───────────────────────────────────────────

theorem countP_covers_zero {s : DriverState} (hch : chainFromB 0 s.timeline = true)
    (hend : timelineEnd 0 s.timeline = s.global_minute) (st : StopEvent)
    (hst : s.global_minute ≤ st.global_minute) :
    s.timeline.countP (coversB st) = 0 := by
  rw [List.countP_eq_zero]
  intro e he
  have hb := chainFromB_mem_bounds hch he
  rw [hend] at hb
  simp only [coversB, Bool.and_eq_true, decide_eq_true_eq]
  rintro ⟨⟨he1, he2⟩, he3⟩
  omega

theorem countP_covers_append_old {s : DriverState} (ev : TimelineEvent)
    (hev : ev.start = s.global_minute) (st : StopEvent)
    (hpast : st.global_minute + st.duration ≤ s.global_minute) (hdur : 0 < st.duration) :
    (s.timeline ++ [ev]).countP (coversB st) = s.timeline.countP (coversB st) := by
  rw [List.countP_append]
  have hfalse : coversB st ev = false := by
    have : ¬ (ev.start = st.global_minute) := by omega
    simp [coversB, this]
  simp [List.countP_cons, hfalse]

theorem periodCheck_pair (s : DriverState) (h : EngineInv s) :
    periodCheck DRIVE_LIMIT s.timeline = (true, s.drive_minutes) := by
  have h1 := h.perOk
  have h2 := h.perAcc
  cases hp : periodCheck DRIVE_LIMIT s.timeline
  rw [hp] at h1 h2
  simp_all

theorem breakCheck_pair (s : DriverState) (h : EngineInv s) :
    breakCheck s.timeline = (true, s.cumulative_drive) := by
  have h1 := h.brkOk
  have h2 := h.brkAcc
  cases hp : breakCheck s.timeline
  rw [hp] at h1 h2
  simp_all

theorem engineInv_global_nonneg (s : DriverState) (h : EngineInv s) : 0 ≤ s.global_minute := by
  have := chainFromB_le 0 s.timeline h.chain
  rw [h.endEq] at this
  exact this

-- ── Master invariant preservation: appending one stop + one event ────

/-- Appending a stop together with its covering non-`DRIVING` timeline
event (the common shape of all four inserters) preserves the invariant. -/
theorem engineInv_extendStop (s : DriverState) (hInv : EngineInv s)
    (k : StopKind) (d : ℤ) (hd : 0 < d) (stLbl evLbl : String) (la ln : ℚ)
    (stStatus : Status) (hst : coverStatus k = stStatus)
    (dm' cum' od' cyc' : ℤ) (msf' : ℚ)
    (hper : periodStep DRIVE_LIMIT (true, s.drive_minutes)
      (TimelineEvent.mk s.global_minute (s.global_minute + d) stStatus evLbl 0) = (true, dm'))
    (hbrk : breakStep (true, s.cumulative_drive)
      (TimelineEvent.mk s.global_minute (s.global_minute + d) stStatus evLbl 0) = (true, cum')) :
    EngineInv (DriverState.mk (s.global_minute + d) dm' od' cum' cyc' msf'
      (s.timeline ++ [TimelineEvent.mk s.global_minute (s.global_minute + d) stStatus evLbl 0])
      (s.stops ++ [StopEvent.mk k s.global_minute d stLbl la ln])) := by
  have hpc : periodCheck DRIVE_LIMIT (s.timeline ++
      [TimelineEvent.mk s.global_minute (s.global_minute + d) stStatus evLbl 0]) = (true, dm') := by
    rw [periodCheck_append, periodCheck_pair s hInv, hper]
  have hbc : breakCheck (s.timeline ++
      [TimelineEvent.mk s.global_minute (s.global_minute + d) stStatus evLbl 0]) = (true, cum') := by
    rw [breakCheck_append, breakCheck_pair s hInv, hbrk]
  constructor
  · exact chainFromB_append _ hInv.chain hInv.endEq.symm (by dsimp only; omega)
  · exact timelineEnd_append _ _ _
  · rw [hpc]
  · rw [hpc]
  · rw [hbc]
  · rw [hbc]
  · intro st hmem
    rcases List.mem_append.mp hmem with hold | hnew
    · rw [countP_covers_append_old _ rfl st (hInv.stopsPast st hold).1 (hInv.stopsPast st hold).2]
      exact hInv.stopsCount st hold
    · have hst' : st = StopEvent.mk k s.global_minute d stLbl la ln := by simpa using hnew
      subst hst'
      rw [List.countP_append]
      rw [countP_covers_zero hInv.chain hInv.endEq _ (by dsimp only; omega)]
      have hcov : coversB (StopEvent.mk k s.global_minute d stLbl la ln)
          (TimelineEvent.mk s.global_minute (s.global_minute + d) stStatus evLbl 0) = true := by
        simp [coversB, hst]
      simp [List.countP_cons, hcov]
  · intro st hmem
    rcases List.mem_append.mp hmem with hold | hnew
    · have := hInv.stopsPast st hold
      dsimp only
      omega
    · have hst' : st = StopEvent.mk k s.global_minute d stLbl la ln := by simpa using hnew
      subst hst'
      dsimp only
      omega

-- ── Invariant preservation by each inserter ──────────────────────────

theorem engineInv_insertReset (s : DriverState) (h : EngineInv s) :
    EngineInv (insertReset s) :=
  engineInv_extendStop s h StopKind.OFF_DUTY_10 OFF_DUTY_RESET (by norm_num [OFF_DUTY_RESET])
    "10-hour off-duty reset" "10-hour sleeper berth reset" 0 0 Status.SLEEPER rfl
    0 0 0 s.cycle_minutes s.miles_since_fuel
    (by simp [periodStep, OFF_DUTY_RESET])
    (by simp [breakStep, OFF_DUTY_RESET])

theorem engineInv_insertBreak (s : DriverState) (label : String) (h : EngineInv s) :
    EngineInv (insertBreak s label) :=
  engineInv_extendStop s h StopKind.BREAK_30 BREAK_DURATION (by norm_num [BREAK_DURATION])
    ("30-min break — " ++ label) "30-min break" 0 0 Status.OFF_DUTY rfl
    s.drive_minutes 0 (s.on_duty_minutes + BREAK_DURATION) s.cycle_minutes s.miles_since_fuel
    (by simp [periodStep, OFF_DUTY_RESET, BREAK_DURATION])
    (by simp [breakStep, OFF_DUTY_RESET, BREAK_DURATION])

theorem engineInv_insertFuelStop (s : DriverState) (label : String) (h : EngineInv s) :
    EngineInv (insertFuelStop s label) :=
  engineInv_extendStop s h StopKind.FUEL FUEL_DURATION (by norm_num [FUEL_DURATION])
    ("Fuel stop — " ++ label) "Fuel stop" 0 0 Status.ON_DUTY_NOT_DRIVING rfl
    s.drive_minutes s.cumulative_drive (s.on_duty_minutes + FUEL_DURATION)
    (s.cycle_minutes + FUEL_DURATION) 0
    (by simp [periodStep, OFF_DUTY_RESET, FUEL_DURATION])
    (by simp [breakStep, OFF_DUTY_RESET, BREAK_DURATION, FUEL_DURATION])

theorem engineInv_insertOnDutyStop (s : DriverState) (h : EngineInv s) (d : ℤ) (hd : 0 < d)
    (k : StopKind) (hk : coverStatus k = Status.ON_DUTY_NOT_DRIVING)
    (label : String) (la ln : ℚ) :
    EngineInv (insertOnDutyStop s d k label la ln) := by
  simp only [insertOnDutyStop]
  split_ifs with hw
  · exact engineInv_extendStop (insertReset s) (engineInv_insertReset s h) k d hd
      label label la ln Status.ON_DUTY_NOT_DRIVING hk
      (insertReset s).drive_minutes (insertReset s).cumulative_drive
      ((insertReset s).on_duty_minutes + d) ((insertReset s).cycle_minutes + d)
      (insertReset s).miles_since_fuel
      (by simp [periodStep, OFF_DUTY_RESET]) (by simp [breakStep, OFF_DUTY_RESET, BREAK_DURATION])
  · exact engineInv_extendStop s h k d hd label label la ln
      Status.ON_DUTY_NOT_DRIVING hk
      s.drive_minutes s.cumulative_drive (s.on_duty_minutes + d) (s.cycle_minutes + d)
      s.miles_since_fuel
      (by simp [periodStep, OFF_DUTY_RESET]) (by simp [breakStep, OFF_DUTY_RESET, BREAK_DURATION])

-- ── Invariant preservation by a driving chunk and a loop iteration ───

theorem engineInv_driveChunk (s : DriverState) (h : EngineInv s) (label : String)
    (md : ℤ) (cm : ℚ) (hmd : 1 ≤ md)
    (hdl : s.drive_minutes + md ≤ DRIVE_LIMIT)
    (hc1 : s.cumulative_drive < BREAK_TRIGGER)
    (hc2 : s.cumulative_drive + md ≤ BREAK_TRIGGER) :
    EngineInv (driveChunk s label md cm) := by
  have hpc : periodCheck DRIVE_LIMIT (s.timeline ++
      [TimelineEvent.mk s.global_minute (s.global_minute + md) Status.DRIVING label cm])
      = (true, s.drive_minutes + md) := by
    rw [periodCheck_append, periodCheck_pair s h]
    simp only [periodStep, OFF_DUTY_RESET]
    rw [if_neg (by simp)]
    simp [hdl]
  have hbc : breakCheck (s.timeline ++
      [TimelineEvent.mk s.global_minute (s.global_minute + md) Status.DRIVING label cm])
      = (true, s.cumulative_drive + md) := by
    rw [breakCheck_append, breakCheck_pair s h]
    simp only [breakStep, OFF_DUTY_RESET, BREAK_DURATION]
    rw [if_neg (by simp)]
    simp [hc1, hc2]
  constructor
  · exact chainFromB_append _ h.chain h.endEq.symm (by dsimp only; omega)
  · exact timelineEnd_append _ _ _
  · rw [driveChunk]
    rw [hpc]
  · rw [driveChunk]
    rw [hpc]
  · rw [driveChunk]
    rw [hbc]
  · rw [driveChunk]
    rw [hbc]
  · intro st hmem
    simp only [driveChunk] at hmem ⊢
    rw [countP_covers_append_old _ rfl st (h.stopsPast st hmem).1 (h.stopsPast st hmem).2]
    exact h.stopsCount st hmem
  · intro st hmem
    simp only [driveChunk] at hmem ⊢
    have := h.stopsPast st hmem
    omega

theorem driveLegStep_engineInv (label : String) (x y : LegState)
    (h : driveLegStep label x = some y) (hx : EngineInv x.st) : EngineInv y.st := by
  unfold driveLegStep at h
  split_ifs at h with h1 h2 h3 h4 h5
  · injection h with h
    subst h
    exact engineInv_insertReset x.st hx
  · injection h with h
    subst h
    exact engineInv_insertBreak x.st label hx
  · injection h with h
    subst h
    exact engineInv_insertFuelStop x.st label hx
  · injection h with h
    subst h
    exact engineInv_driveChunk x.st hx label _ _ (chunkSize_pos _ _ _)
      (chunkSize_drive_bound _ _ _ (by omega))
      (by omega)
      (chunkSize_break_bound _ _ _ (by omega))

theorem driveLeg_engineInv (s : DriverState) (miles : ℚ) (minutes : ℤ) (label : String)
    (h : EngineInv s) : EngineInv (driveLeg s miles minutes label) :=
  driveLegGo_pres label (fun z => EngineInv z.st)
    (fun a b hab hP => driveLegStep_engineInv label a b hab hP) _ _ h

-- ── Initial state, pickup/dropoff, tail fill ─────────────────────────

theorem engineInv_init (cyc : ℤ) : EngineInv (DriverState.mk 0 0 0 0 cyc 0 [] []) := by
  constructor <;> simp [chainFromB, timelineEnd, periodCheck, breakCheck]

theorem insertOnDutyStop_timeline_ne_nil (s : DriverState) (d : ℤ) (k : StopKind)
    (label : String) (la ln : ℚ) : (insertOnDutyStop s d k label la ln).timeline ≠ [] := by
  simp only [insertOnDutyStop]
  split_ifs <;> simp

theorem insertOnDutyStop_global_lower (s : DriverState) (d : ℤ) (k : StopKind)
    (label : String) (la ln : ℚ) :
    s.global_minute + d ≤ (insertOnDutyStop s d k label la ln).global_minute := by
  simp only [insertOnDutyStop, insertReset, OFF_DUTY_RESET]
  split_ifs <;> (try dsimp only) <;> omega

theorem tailFill_timeline_facts (s : DriverState) (h : EngineInv s) :
    chainFromB 0 (tailFill s).timeline = true ∧
    timelineEnd 0 (tailFill s).timeline = (tailFill s).global_minute ∧
    (periodCheck DRIVE_LIMIT (tailFill s).timeline).1 = true ∧
    (breakCheck (tailFill s).timeline).1 = true ∧
    (∀ st ∈ (tailFill s).stops, (tailFill s).timeline.countP (coversB st) = 1) := by
  simp only [tailFill, MINUTES_IN_DAY]
  split_ifs with hdm
  · refine ⟨?_, ?_, ?_, ?_, ?_⟩
    · exact chainFromB_append _ h.chain h.endEq.symm (by dsimp only; omega)
    · exact timelineEnd_append _ _ _
    · rw [periodCheck_append, periodStep_fst_of_not_driving _ _ _ (by simp)]
      exact h.perOk
    · rw [breakCheck_append, breakStep_fst_of_not_driving _ _ (by simp)]
      exact h.brkOk
    · intro st hmem
      rw [countP_covers_append_old _ rfl st (h.stopsPast st hmem).1 (h.stopsPast st hmem).2]
      exact h.stopsCount st hmem
  · exact ⟨h.chain, h.endEq, h.perOk, h.brkOk, h.stopsCount⟩

theorem tailFill_global_dvd (s : DriverState) :
    MINUTES_IN_DAY ∣ (tailFill s).global_minute ∧
    s.global_minute ≤ (tailFill s).global_minute := by
  by_cases hdm : 0 < s.global_minute % MINUTES_IN_DAY
  · have heq : (tailFill s).global_minute
        = s.global_minute + (MINUTES_IN_DAY - s.global_minute % MINUTES_IN_DAY) := by
      simp [tailFill, hdm]
    rw [heq]
    simp only [MINUTES_IN_DAY] at *
    constructor <;> omega
  · have heq : (tailFill s).global_minute = s.global_minute := by simp [tailFill, hdm]
    rw [heq]
    simp only [MINUTES_IN_DAY] at hdm ⊢
    constructor <;> omega

theorem tailFill_timeline_ne_nil (s : DriverState) (h : s.timeline ≠ []) :
    (tailFill s).timeline ≠ [] := by
  simp only [tailFill]
  split_ifs <;> simp_all

-- ── Facts about the final simulated state of `compute_plan` ──────────

theorem pipeline_facts (s0 : DriverState) (h0 : EngineInv s0)
    (m1 : ℚ) (t1 : ℤ) (m2 : ℚ) (t2 : ℤ) (pl dl : String) (pc dc : ℚ × ℚ) :
    chainFromB 0 (tailFill (insertOnDutyStop (driveLeg (insertOnDutyStop
        (driveLeg s0 m1 t1 "En route to pickup") PICKUP_DURATION StopKind.PICKUP pl pc.1 pc.2)
        m2 t2 "En route to dropoff") DROPOFF_DURATION StopKind.DROPOFF dl dc.1 dc.2)).timeline
      = true ∧
    timelineEnd 0 (tailFill (insertOnDutyStop (driveLeg (insertOnDutyStop
        (driveLeg s0 m1 t1 "En route to pickup") PICKUP_DURATION StopKind.PICKUP pl pc.1 pc.2)
        m2 t2 "En route to dropoff") DROPOFF_DURATION StopKind.DROPOFF dl dc.1 dc.2)).timeline
      = (tailFill (insertOnDutyStop (driveLeg (insertOnDutyStop
        (driveLeg s0 m1 t1 "En route to pickup") PICKUP_DURATION StopKind.PICKUP pl pc.1 pc.2)
        m2 t2 "En route to dropoff") DROPOFF_DURATION StopKind.DROPOFF dl dc.1 dc.2)).global_minute ∧
    (periodCheck DRIVE_LIMIT (tailFill (insertOnDutyStop (driveLeg (insertOnDutyStop
        (driveLeg s0 m1 t1 "En route to pickup") PICKUP_DURATION StopKind.PICKUP pl pc.1 pc.2)
        m2 t2 "En route to dropoff") DROPOFF_DURATION StopKind.DROPOFF dl dc.1 dc.2)).timeline).1
      = true ∧
    (breakCheck (tailFill (insertOnDutyStop (driveLeg (insertOnDutyStop
        (driveLeg s0 m1 t1 "En route to pickup") PICKUP_DURATION StopKind.PICKUP pl pc.1 pc.2)
        m2 t2 "En route to dropoff") DROPOFF_DURATION StopKind.DROPOFF dl dc.1 dc.2)).timeline).1
      = true ∧
    (∀ st ∈ (tailFill (insertOnDutyStop (driveLeg (insertOnDutyStop
        (driveLeg s0 m1 t1 "En route to pickup") PICKUP_DURATION StopKind.PICKUP pl pc.1 pc.2)
        m2 t2 "En route to dropoff") DROPOFF_DURATION StopKind.DROPOFF dl dc.1 dc.2)).stops,
      (tailFill (insertOnDutyStop (driveLeg (insertOnDutyStop
        (driveLeg s0 m1 t1 "En route to pickup") PICKUP_DURATION StopKind.PICKUP pl pc.1 pc.2)
        m2 t2 "En route to dropoff") DROPOFF_DURATION StopKind.DROPOFF dl dc.1 dc.2)).timeline.countP
        (coversB st) = 1) ∧
    (tailFill (insertOnDutyStop (driveLeg (insertOnDutyStop
        (driveLeg s0 m1 t1 "En route to pickup") PICKUP_DURATION StopKind.PICKUP pl pc.1 pc.2)
        m2 t2 "En route to dropoff") DROPOFF_DURATION StopKind.DROPOFF dl dc.1 dc.2)).timeline ≠ [] ∧
    MINUTES_IN_DAY ∣ (tailFill (insertOnDutyStop (driveLeg (insertOnDutyStop
        (driveLeg s0 m1 t1 "En route to pickup") PICKUP_DURATION StopKind.PICKUP pl pc.1 pc.2)
        m2 t2 "En route to dropoff") DROPOFF_DURATION StopKind.DROPOFF dl dc.1 dc.2)).global_minute ∧
    0 < (tailFill (insertOnDutyStop (driveLeg (insertOnDutyStop
        (driveLeg s0 m1 t1 "En route to pickup") PICKUP_DURATION StopKind.PICKUP pl pc.1 pc.2)
        m2 t2 "En route to dropoff") DROPOFF_DURATION StopKind.DROPOFF dl dc.1 dc.2)).global_minute := by
  have h1 := driveLeg_engineInv s0 m1 t1 "En route to pickup" h0
  have h2 := engineInv_insertOnDutyStop _ h1 PICKUP_DURATION (by norm_num [PICKUP_DURATION])
    StopKind.PICKUP rfl pl pc.1 pc.2
  have h3 := driveLeg_engineInv _ m2 t2 "En route to dropoff" h2
  have h4 := engineInv_insertOnDutyStop _ h3 DROPOFF_DURATION (by norm_num [DROPOFF_DURATION])
    StopKind.DROPOFF rfl dl dc.1 dc.2
  have hT := tailFill_timeline_facts _ h4
  have hD := tailFill_global_dvd (insertOnDutyStop (driveLeg (insertOnDutyStop
    (driveLeg s0 m1 t1 "En route to pickup") PICKUP_DURATION StopKind.PICKUP pl pc.1 pc.2)
    m2 t2 "En route to dropoff") DROPOFF_DURATION StopKind.DROPOFF dl dc.1 dc.2)
  have hg3 : 0 ≤ (driveLeg (insertOnDutyStop (driveLeg s0 m1 t1 "En route to pickup")
      PICKUP_DURATION StopKind.PICKUP pl pc.1 pc.2) m2 t2 "En route to dropoff").global_minute :=
    engineInv_global_nonneg _ h3
  have hg4 := insertOnDutyStop_global_lower (driveLeg (insertOnDutyStop
    (driveLeg s0 m1 t1 "En route to pickup") PICKUP_DURATION StopKind.PICKUP pl pc.1 pc.2)
    m2 t2 "En route to dropoff") DROPOFF_DURATION StopKind.DROPOFF dl dc.1 dc.2
  have hdd : (0 : ℤ) < DROPOFF_DURATION := by norm_num [DROPOFF_DURATION]
  have hne := tailFill_timeline_ne_nil _ (insertOnDutyStop_timeline_ne_nil
    (driveLeg (insertOnDutyStop (driveLeg s0 m1 t1 "En route to pickup")
      PICKUP_DURATION StopKind.PICKUP pl pc.1 pc.2) m2 t2 "En route to dropoff")
    DROPOFF_DURATION StopKind.DROPOFF dl dc.1 dc.2)
  exact ⟨hT.1, hT.2.1, hT.2.2.1, hT.2.2.2.1, hT.2.2.2.2, hne, hD.1, by omega⟩

-- ── Flag monotonicity of the period scanner ──────────────────────────

theorem periodFold_flag_false : ∀ (tl : List TimelineEvent) (l acc : ℤ),
    (tl.foldl (periodStep l) (false, acc)).1 = false := by
  intro tl
  induction tl with
  | nil => intro l acc; rfl
  | cons e rest ih =>
    intro l acc
    simp only [List.foldl_cons, periodStep]
    split_ifs <;> simp [ih]

theorem periodFold_mono : ∀ (tl : List TimelineEvent) (l1 l2 acc : ℤ), l1 ≤ l2 →
    (tl.foldl (periodStep l1) (true, acc)).1 = true →
    (tl.foldl (periodStep l2) (true, acc)).1 = true := by
  intro tl
  induction tl with
  | nil => intro l1 l2 acc hle hb; exact hb
  | cons e rest ih =>
    intro l1 l2 acc hle hb
    simp only [List.foldl_cons, periodStep] at hb ⊢
    split_ifs at hb ⊢ with hres hdr
    · exact ih l1 l2 0 hle hb
    · have hflag : decide (acc + (e.«end» - e.start) ≤ l1) = true := by
        by_contra hfl
        rw [Bool.not_eq_true] at hfl
        rw [Bool.true_and, hfl] at hb
        rw [periodFold_flag_false] at hb
        exact Bool.false_ne_true hb
      rw [Bool.true_and, hflag] at hb
      have h2 : decide (acc + (e.«end» - e.start) ≤ l2) = true := by
        simp only [decide_eq_true_eq] at hflag ⊢
        omega
      rw [Bool.true_and, h2]
      exact ih l1 l2 _ hle hb
    · exact ih l1 l2 acc hle hb

theorem finalState_facts (tm : ℚ) (tdm : ℤ) (ch : ℚ) (pl dl : String) (pc dc : ℚ × ℚ)
    (l1m : Option ℚ) (l1t : Option ℤ) (l2m : Option ℚ) (l2t : Option ℤ) :
    chainFromB 0 (finalState tm tdm ch pl dl pc dc l1m l1t l2m l2t).timeline = true ∧
    timelineEnd 0 (finalState tm tdm ch pl dl pc dc l1m l1t l2m l2t).timeline
      = (finalState tm tdm ch pl dl pc dc l1m l1t l2m l2t).global_minute ∧
    (periodCheck DRIVE_LIMIT (finalState tm tdm ch pl dl pc dc l1m l1t l2m l2t).timeline).1
      = true ∧
    (breakCheck (finalState tm tdm ch pl dl pc dc l1m l1t l2m l2t).timeline).1 = true ∧
    (∀ st ∈ (finalState tm tdm ch pl dl pc dc l1m l1t l2m l2t).stops,
      (finalState tm tdm ch pl dl pc dc l1m l1t l2m l2t).timeline.countP (coversB st) = 1) ∧
    (finalState tm tdm ch pl dl pc dc l1m l1t l2m l2t).timeline ≠ [] ∧
    MINUTES_IN_DAY ∣ (finalState tm tdm ch pl dl pc dc l1m l1t l2m l2t).global_minute ∧
    0 < (finalState tm tdm ch pl dl pc dc l1m l1t l2m l2t).global_minute := by
  exact pipeline_facts (DriverState.mk 0 0 0 0 (initialCycleMinutes ch) 0 [] [])
    (engineInv_init _) _ _ _ _ pl dl pc dc

theorem computePlan_timeline_eq (today : ℤ) (tm : ℚ) (tdm : ℤ) (ch : ℚ)
    (pl dl : String) (pc dc : ℚ × ℚ) (sd : Option ℤ) (l1m : Option ℚ) (l1t : Option ℤ)
    (l2m : Option ℚ) (l2t : Option ℤ) :
    (computePlan today tm tdm ch pl dl pc dc sd l1m l1t l2m l2t).timeline
      = (finalState tm tdm ch pl dl pc dc l1m l1t l2m l2t).timeline := rfl

theorem computePlan_stops_eq (today : ℤ) (tm : ℚ) (tdm : ℤ) (ch : ℚ)
    (pl dl : String) (pc dc : ℚ × ℚ) (sd : Option ℤ) (l1m : Option ℚ) (l1t : Option ℤ)
    (l2m : Option ℚ) (l2t : Option ℤ) :
    (computePlan today tm tdm ch pl dl pc dc sd l1m l1t l2m l2t).stops
      = (finalState tm tdm ch pl dl pc dc l1m l1t l2m l2t).stops := rfl

-- ── Claim theorems: timeline invariants ──────────────────────────────

/-- C1: For every input and every duty period of the resulting timeline
(the span between successive 600-minute `SLEEPER` events, or from minute 0
to the first, or from the last to the end), the sum of `DRIVING` minutes in
that period is at most 660 + 1 — the second conjunct states exactly this
via the running scanner with limit `DRIVE_LIMIT + 1 = 661` — and no
`DRIVING` timeline event is emitted whose addition would push the period's
`DRIVING` total past 660 — the first conjunct, with limit `DRIVE_LIMIT`.
The code in fact guarantees the tighter 660 bound. -/
theorem computePlan_period_drive_limit (today : ℤ) (tm : ℚ) (tdm : ℤ) (ch : ℚ)
    (pl dl : String) (pc dc : ℚ × ℚ) (sd : Option ℤ) (l1m : Option ℚ) (l1t : Option ℤ)
    (l2m : Option ℚ) (l2t : Option ℤ) :
    (periodCheck DRIVE_LIMIT
      (computePlan today tm tdm ch pl dl pc dc sd l1m l1t l2m l2t).timeline).1 = true ∧
    (periodCheck (DRIVE_LIMIT + 1)
      (computePlan today tm tdm ch pl dl pc dc sd l1m l1t l2m l2t).timeline).1 = true := by
  rw [computePlan_timeline_eq]
  have hf := (finalState_facts tm tdm ch pl dl pc dc l1m l1t l2m l2t).2.2.1
  exact ⟨hf, periodFold_mono _ DRIVE_LIMIT (DRIVE_LIMIT + 1) 0 (by omega) hf⟩

/-- C5: the timeline never contains a `DRIVING` chunk that starts with 480
or more minutes of driving accumulated since the last 30-minute `OFF_DUTY`
or 600-minute `SLEEPER` event, and no chunk carries that running total past
480; equivalently, between any two `DRIVING` events whose running total
would exceed 480 there is a 30-minute `OFF_DUTY` or 600-minute `SLEEPER`
reset. -/
theorem computePlan_break_rule (today : ℤ) (tm : ℚ) (tdm : ℤ) (ch : ℚ)
    (pl dl : String) (pc dc : ℚ × ℚ) (sd : Option ℤ) (l1m : Option ℚ) (l1t : Option ℤ)
    (l2m : Option ℚ) (l2t : Option ℤ) :
    (breakCheck (computePlan today tm tdm ch pl dl pc dc sd l1m l1t l2m l2t).timeline).1
      = true := by
  rw [computePlan_timeline_eq]
  exact (finalState_facts tm tdm ch pl dl pc dc l1m l1t l2m l2t).2.2.2.1

/-- C6: the returned timeline is a nonempty contiguous non-overlapping
sequence: the first event starts at minute 0, every event has
`end > start`, and each event's end equals the next event's start
(this is exactly what `chainFromB 0` checks). -/
theorem computePlan_timeline_contiguous (today : ℤ) (tm : ℚ) (tdm : ℤ) (ch : ℚ)
    (pl dl : String) (pc dc : ℚ × ℚ) (sd : Option ℤ) (l1m : Option ℚ) (l1t : Option ℤ)
    (l2m : Option ℚ) (l2t : Option ℤ) :
    chainFromB 0 (computePlan today tm tdm ch pl dl pc dc sd l1m l1t l2m l2t).timeline = true
      ∧ (computePlan today tm tdm ch pl dl pc dc sd l1m l1t l2m l2t).timeline ≠ [] := by
  rw [computePlan_timeline_eq]
  have hf := finalState_facts tm tdm ch pl dl pc dc l1m l1t l2m l2t
  exact ⟨hf.1, hf.2.2.2.2.2.1⟩

/-- C7: every `StopEvent` at global minute `t` with duration `d` is covered
by exactly one timeline event `[t, t+d)` whose status is the one prescribed
for its kind (`BREAK_30` by `OFF_DUTY`, `OFF_DUTY_10` by `SLEEPER`, and
`FUEL`, `PICKUP`, `DROPOFF` by `ON_DUTY_NOT_DRIVING` — `coverStatus`). -/
theorem computePlan_stops_covered (today : ℤ) (tm : ℚ) (tdm : ℤ) (ch : ℚ)
    (pl dl : String) (pc dc : ℚ × ℚ) (sd : Option ℤ) (l1m : Option ℚ) (l1t : Option ℤ)
    (l2m : Option ℚ) (l2t : Option ℤ) :
    (computePlan today tm tdm ch pl dl pc dc sd l1m l1t l2m l2t).stops.all
      (fun st => decide ((computePlan today tm tdm ch pl dl pc dc sd l1m l1t
        l2m l2t).timeline.countP (coversB st) = 1)) = true := by
  rw [computePlan_stops_eq]
  rw [List.all_eq_true]
  intro st hmem
  rw [decide_eq_true_eq, computePlan_timeline_eq]
  exact (finalState_facts tm tdm ch pl dl pc dc l1m l1t l2m l2t).2.2.2.2.1 st hmem

-- ── Day-sheet coverage machinery ─────────────────────────────────────

theorem daySegments_nil_of_ge : ∀ (tl : List TimelineEvent) (u ds de : ℤ),
    chainFromB u tl = true → de ≤ u → daySegments tl ds de = [] := by
  intro tl
  induction tl with
  | nil => intro u ds de h hle; rfl
  | cons e rest ih =>
    intro u ds de h hle
    simp only [chainFromB, Bool.and_eq_true, decide_eq_true_eq] at h
    obtain ⟨⟨h1, h2⟩, h3⟩ := h
    have hclip : clipEvent ds de e = none := by
      simp only [clipEvent]
      rw [if_pos (Or.inr (by omega))]
    simp only [daySegments, List.filterMap_cons, hclip]
    exact ih e.«end» ds de h3 (by omega)

theorem daySegments_chain : ∀ (tl : List TimelineEvent) (t ds de : ℤ),
    chainFromB t tl = true → t < de → ds < de → de ≤ timelineEnd t tl →
    segChainB (max t ds - ds) (de - ds) (daySegments tl ds de) = true := by
  intro tl
  induction tl with
  | nil =>
    intro t ds de hch ht hd hle
    simp only [timelineEnd] at hle
    omega
  | cons e rest ih =>
    intro t ds de hch ht hd hle
    simp only [chainFromB, Bool.and_eq_true, decide_eq_true_eq] at hch
    obtain ⟨⟨h1, h2⟩, h3⟩ := hch
    simp only [timelineEnd] at hle
    by_cases hA : e.«end» ≤ ds
    · -- event entirely before the day window
      have hclip : clipEvent ds de e = none := by
        simp only [clipEvent]
        rw [if_pos (Or.inl hA)]
      simp only [daySegments, List.filterMap_cons, hclip]
      have H := ih e.«end» ds de h3 (by omega) hd hle
      simp only [daySegments] at H
      rw [show max t ds - ds = max e.«end» ds - ds from by omega]
      exact H
    · -- event overlaps the day window
      push_neg at hA
      have hclip : clipEvent ds de e = some (DaySegment.mk (max e.start ds - ds)
          (min e.«end» de - ds) e.status e.label) := by
        simp only [clipEvent]
        rw [if_neg (by omega), if_neg (by omega)]
      simp only [daySegments, List.filterMap_cons, hclip]
      simp only [segChainB, Bool.and_eq_true, decide_eq_true_eq]
      refine ⟨⟨by omega, by omega⟩, ?_⟩
      by_cases hE : de ≤ e.«end»
      · have hnil := daySegments_nil_of_ge rest e.«end» ds de h3 hE
        simp only [daySegments] at hnil
        rw [hnil]
        simp only [segChainB, decide_eq_true_eq]
        omega
      · have H := ih e.«end» ds de h3 (by omega) hd (by omega)
        simp only [daySegments] at H
        rw [show min e.«end» de - ds = max e.«end» ds - ds from by omega]
        exact H

theorem mergeInto_chain : ∀ (l : List DaySegment) (m : DaySegment) (a b : ℤ),
    m.start_minute = a → a < m.end_minute → segChainB m.end_minute b l = true →
    segChainB a b (mergeInto m l) = true := by
  intro l
  induction l with
  | nil =>
    intro m a b h1 h2 h3
    simp only [segChainB, decide_eq_true_eq] at h3
    simp only [mergeInto, segChainB, Bool.and_eq_true, decide_eq_true_eq]
    exact ⟨⟨h1, h2⟩, h3⟩
  | cons s rest ih =>
    intro m a b h1 h2 h3
    simp only [segChainB, Bool.and_eq_true, decide_eq_true_eq] at h3
    obtain ⟨⟨hs1, hs2⟩, hs3⟩ := h3
    by_cases hmerge : s.status = m.status ∧ s.start_minute = m.end_minute
    · simp only [mergeInto]
      rw [if_pos hmerge]
      exact ih _ a b h1 (by show a < s.end_minute; omega) hs3
    · simp only [mergeInto]
      rw [if_neg hmerge]
      show (decide (m.start_minute = a) && decide (a < m.end_minute)
        && segChainB m.end_minute b (mergeInto s rest)) = true
      simp only [Bool.and_eq_true, decide_eq_true_eq]
      exact ⟨⟨h1, h2⟩, ih s m.end_minute b hs1 (by omega) hs3⟩

theorem mergeSegments_chain (l : List DaySegment) (a b : ℤ) (h : segChainB a b l = true) :
    segChainB a b (mergeSegments l) = true := by
  cases l with
  | nil => exact h
  | cons s rest =>
    simp only [segChainB, Bool.and_eq_true, decide_eq_true_eq] at h
    obtain ⟨⟨h1, h2⟩, h3⟩ := h
    simp only [mergeSegments]
    exact mergeInto_chain rest s a b h1 h2 h3

theorem segLenSum_shift : ∀ (l : List DaySegment) (c : ℤ),
    l.foldl (fun acc s => acc + (s.end_minute - s.start_minute)) c = c + segLenSum l := by
  intro l
  induction l with
  | nil => intro c; simp [segLenSum]
  | cons s rest ih =>
    intro c
    simp only [segLenSum, List.foldl_cons] at *
    rw [ih, ih (0 + (s.end_minute - s.start_minute))]
    omega

theorem segChainB_sum : ∀ (l : List DaySegment) (a b : ℤ),
    segChainB a b l = true → segLenSum l = b - a := by
  intro l
  induction l with
  | nil =>
    intro a b h
    simp only [segChainB, decide_eq_true_eq] at h
    simp [segLenSum, h]
  | cons s rest ih =>
    intro a b h
    simp only [segChainB, Bool.and_eq_true, decide_eq_true_eq] at h
    obtain ⟨⟨h1, h2⟩, h3⟩ := h
    have H := ih s.end_minute b h3
    simp only [segLenSum, List.foldl_cons] at *
    rw [segLenSum_shift] at *
    omega

theorem buildDailySheets_complete (tl : List TimelineEvent) (sdate : ℤ)
    (hch : chainFromB 0 tl = true) (hne : tl ≠ [])
    (hdvd : MINUTES_IN_DAY ∣ timelineEnd 0 tl) (hpos : 0 < timelineEnd 0 tl) :
    (buildDailySheets tl sdate).all
      (fun sh => segChainB 0 MINUTES_IN_DAY sh.segments
        && decide (segLenSum sh.segments = MINUTES_IN_DAY)) = true := by
  obtain ⟨kq, hk⟩ := hdvd
  have hkpos : 0 < kq := by
    simp only [MINUTES_IN_DAY] at hk
    omega
  have hceil : (⌈(timelineEnd 0 tl : ℚ) / (MINUTES_IN_DAY : ℚ)⌉).toNat = kq.toNat := by
    rw [hk]
    simp only [MINUTES_IN_DAY]
    rw [show (((1440 * kq : ℤ) : ℚ) / ((1440 : ℤ) : ℚ)) = ((kq : ℤ) : ℚ) from by
      push_cast
      field_simp]
    rw [Int.ceil_intCast]
  simp only [buildDailySheets]
  rw [if_neg hne]
  rw [List.all_eq_true]
  intro sh hmem
  rw [List.mem_map] at hmem
  obtain ⟨i, hi, rfl⟩ := hmem
  rw [List.mem_range] at hi
  rw [hceil] at hi
  have hik : (i : ℤ) + 1 ≤ kq := by omega
  have hide : (i : ℤ) * MINUTES_IN_DAY + MINUTES_IN_DAY ≤ timelineEnd 0 tl := by
    rw [hk]
    simp only [MINUTES_IN_DAY] at hik ⊢
    omega
  have H := daySegments_chain tl 0 ((i : ℤ) * MINUTES_IN_DAY)
    ((i : ℤ) * MINUTES_IN_DAY + MINUTES_IN_DAY) hch
    (by simp only [MINUTES_IN_DAY]; omega)
    (by simp only [MINUTES_IN_DAY]; omega) hide
  rw [show max (0 : ℤ) ((i : ℤ) * MINUTES_IN_DAY) - (i : ℤ) * MINUTES_IN_DAY = 0 from by
    simp only [MINUTES_IN_DAY]; omega] at H
  rw [show (i : ℤ) * MINUTES_IN_DAY + MINUTES_IN_DAY - (i : ℤ) * MINUTES_IN_DAY
      = MINUTES_IN_DAY from by omega] at H
  have Hm := mergeSegments_chain _ 0 MINUTES_IN_DAY H
  have Hs := segChainB_sum _ 0 MINUTES_IN_DAY Hm
  simp only [Bool.and_eq_true, decide_eq_true_eq]
  exact ⟨Hm, by omega⟩

/-- C8: every `DaySheet` in the returned `daily_sheets` has segments that
are contiguous, cover exactly `[0, 1440)` (they chain from minute 0 to
minute 1440), and whose lengths sum to exactly 1440 minutes.  The
orchestrator's tail fill (`tailFill`: an `OFF_DUTY` timeline event of
`1440 - (global_minute mod 1440)` minutes appended when that remainder is
nonzero, with no accompanying `StopEvent`) makes the final global minute a
positive multiple of 1440, which guarantees this for the last day. -/
theorem computePlan_day_sheets_complete (today : ℤ) (tm : ℚ) (tdm : ℤ) (ch : ℚ)
    (pl dl : String) (pc dc : ℚ × ℚ) (sd : Option ℤ) (l1m : Option ℚ) (l1t : Option ℤ)
    (l2m : Option ℚ) (l2t : Option ℤ) :
    (computePlan today tm tdm ch pl dl pc dc sd l1m l1t l2m l2t).daily_sheets.all
      (fun sh => segChainB 0 MINUTES_IN_DAY sh.segments
        && decide (segLenSum sh.segments = MINUTES_IN_DAY)) = true := by
  have hf := finalState_facts tm tdm ch pl dl pc dc l1m l1t l2m l2t
  obtain ⟨hch, hend, hper, hbrk, hcov, hne, hdvd, hpos⟩ := hf
  have hds : (computePlan today tm tdm ch pl dl pc dc sd l1m l1t l2m l2t).daily_sheets
      = buildDailySheets (finalState tm tdm ch pl dl pc dc l1m l1t l2m l2t).timeline
        (sd.getD today) := rfl
  rw [hds]
  refine buildDailySheets_complete _ _ hch hne ?_ ?_
  · rw [hend]
    exact hdvd
  · rw [hend]
    exact hpos

-- ── Cycle-exhaustion behaviour (no driving when the 70-hour budget is gone)

theorem driveLegStep_none_of_cycle (label : String) (x : LegState)
    (h : CYCLE_LIMIT ≤ x.st.cycle_minutes) : driveLegStep label x = none := by
  unfold driveLegStep
  split_ifs with h1 h2 h3 h4 h5 <;> first | rfl | (exfalso; omega)

theorem driveLeg_cycle_exhausted (s : DriverState) (m : ℚ) (t : ℤ) (label : String)
    (h : CYCLE_LIMIT ≤ s.cycle_minutes) : driveLeg s m t label = s := by
  unfold driveLeg
  simp only [driveLegGo]
  rw [driveLegStep_none_of_cycle label _ h]

theorem insertOnDutyStop_cycle_ge (s : DriverState) (d : ℤ) (k : StopKind)
    (label : String) (la ln : ℚ) (h : CYCLE_LIMIT ≤ s.cycle_minutes) (hd : 0 ≤ d) :
    CYCLE_LIMIT ≤ (insertOnDutyStop s d k label la ln).cycle_minutes := by
  simp only [insertOnDutyStop, insertReset]
  split_ifs <;> (try dsimp only) <;> omega

theorem insertOnDutyStop_no_driving (s : DriverState) (d : ℤ) (k : StopKind)
    (label : String) (la ln : ℚ)
    (h : s.timeline.all (fun e => !(decide (e.status = Status.DRIVING))) = true) :
    (insertOnDutyStop s d k label la ln).timeline.all
      (fun e => !(decide (e.status = Status.DRIVING))) = true := by
  simp only [insertOnDutyStop, insertReset]
  split_ifs <;> simp_all

theorem tailFill_no_driving (s : DriverState)
    (h : s.timeline.all (fun e => !(decide (e.status = Status.DRIVING))) = true) :
    (tailFill s).timeline.all (fun e => !(decide (e.status = Status.DRIVING))) = true := by
  simp only [tailFill]
  split_ifs <;> simp_all

theorem drivingSum_go (l : List TimelineEvent) (c : ℤ) :
    l.foldl (fun acc e => if e.status = Status.DRIVING then acc + (e.«end» - e.start) else acc) c
      = c + drivingSum l := by
  induction l generalizing c with
  | nil => simp [drivingSum]
  | cons e rest ih =>
    simp only [drivingSum, List.foldl_cons]
    rw [ih, ih (if e.status = Status.DRIVING then 0 + (e.«end» - e.start) else 0)]
    split <;> omega

theorem drivingSum_zero_of_no_driving (tl : List TimelineEvent)
    (h : tl.all (fun e => !(decide (e.status = Status.DRIVING))) = true) :
    drivingSum tl = 0 := by
  induction tl with
  | nil => rfl
  | cons e rest ih =>
    simp only [List.all_cons, Bool.and_eq_true, Bool.not_eq_true',
      decide_eq_false_iff_not] at h
    simp only [drivingSum, List.foldl_cons]
    rw [drivingSum_go]
    rw [if_neg h.1]
    simp [ih h.2]

theorem pipeline_cycle_no_driving (s0 : DriverState) (h0 : CYCLE_LIMIT ≤ s0.cycle_minutes)
    (hnd : s0.timeline.all (fun e => !(decide (e.status = Status.DRIVING))) = true)
    (m1 : ℚ) (t1 : ℤ) (m2 : ℚ) (t2 : ℤ) (pl dl : String) (pc dc : ℚ × ℚ) :
    (tailFill (insertOnDutyStop (driveLeg (insertOnDutyStop
        (driveLeg s0 m1 t1 "En route to pickup") PICKUP_DURATION StopKind.PICKUP pl pc.1 pc.2)
        m2 t2 "En route to dropoff") DROPOFF_DURATION StopKind.DROPOFF dl dc.1 dc.2)).timeline.all
      (fun e => !(decide (e.status = Status.DRIVING))) = true := by
  rw [driveLeg_cycle_exhausted _ _ _ _ h0]
  have hc2 : CYCLE_LIMIT ≤ (insertOnDutyStop s0 PICKUP_DURATION StopKind.PICKUP pl
      pc.1 pc.2).cycle_minutes :=
    insertOnDutyStop_cycle_ge _ _ _ _ _ _ h0 (by norm_num [PICKUP_DURATION])
  rw [driveLeg_cycle_exhausted _ _ _ _ hc2]
  exact tailFill_no_driving _ (insertOnDutyStop_no_driving _ _ _ _ _ _
    (insertOnDutyStop_no_driving _ _ _ _ _ _ hnd))

/-- C2 (amended): for every input with `cycle_used_hours ≥ 70` the plan
contains no `DRIVING` timeline event and `remaining_drive_minutes` equals
`total_drive_minutes`; `trip_completed` is false whenever
`total_drive_minutes > 0` (when it is 0, `remaining_drive = max(0, 0) = 0`
and the code reports `trip_completed = true`, see the counterexample). -/
theorem computePlan_cycle_exhausted (today : ℤ) (tm : ℚ) (tdm : ℤ) (ch : ℚ)
    (pl dl : String) (pc dc : ℚ × ℚ) (sd : Option ℤ) (l1m : Option ℚ) (l1t : Option ℤ)
    (l2m : Option ℚ) (l2t : Option ℤ) (hch : 70 ≤ ch) (htdm : 0 ≤ tdm) :
    (computePlan today tm tdm ch pl dl pc dc sd l1m l1t l2m l2t).timeline.all
      (fun e => !(decide (e.status = Status.DRIVING))) = true ∧
    (computePlan today tm tdm ch pl dl pc dc sd l1m l1t l2m l2t).remaining_drive_minutes = tdm ∧
    (0 < tdm →
      (computePlan today tm tdm ch pl dl pc dc sd l1m l1t l2m l2t).trip_completed = false) := by
  have h0 : CYCLE_LIMIT ≤ initialCycleMinutes ch := by
    unfold initialCycleMinutes pyInt
    rw [if_pos (mul_nonneg (by linarith) (by norm_num))]
    rw [CYCLE_LIMIT]
    exact Int.le_floor.mpr (by push_cast; linarith)
  have hnd : (finalState tm tdm ch pl dl pc dc l1m l1t l2m l2t).timeline.all
      (fun e => !(decide (e.status = Status.DRIVING))) = true :=
    pipeline_cycle_no_driving (DriverState.mk 0 0 0 0 (initialCycleMinutes ch) 0 [] [])
      h0 rfl _ _ _ _ pl dl pc dc
  have hzero : drivingSum (finalState tm tdm ch pl dl pc dc l1m l1t l2m l2t).timeline = 0 :=
    drivingSum_zero_of_no_driving _ hnd
  refine ⟨?_, ?_, ?_⟩
  · rw [computePlan_timeline_eq]
    exact hnd
  · show max 0 (tdm - drivingSum
      (finalState tm tdm ch pl dl pc dc l1m l1t l2m l2t).timeline) = tdm
    rw [hzero]
    omega
  · intro hpos
    show decide (max 0 (tdm - drivingSum
      (finalState tm tdm ch pl dl pc dc l1m l1t l2m l2t).timeline) ≤ 0) = false
    rw [hzero]
    exact decide_eq_false (by omega)

-- ── The driving budget of a leg ──────────────────────────────────────

theorem driveLegStep_drivingSum (label : String) (B : ℤ) (x y : LegState)
    (h : driveLegStep label x = some y)
    (hx : drivingSum x.st.timeline + max 0 x.remaining_minutes ≤ B) :
    drivingSum y.st.timeline + max 0 y.remaining_minutes ≤ B := by
  unfold driveLegStep at h
  split_ifs at h with h1 h2 h3 h4 h5
  · injection h with h
    subst h
    simpa [insertReset, drivingSum_append] using hx
  · injection h with h
    subst h
    simpa [insertBreak, drivingSum_append] using hx
  · injection h with h
    subst h
    simpa [insertFuelStop, drivingSum_append] using hx
  · injection h with h
    subst h
    have hmd1 : 1 ≤ chunkSize x.st x.remaining_miles x.remaining_minutes := chunkSize_pos _ _ _
    have hmd2 : chunkSize x.st x.remaining_miles x.remaining_minutes ≤ x.remaining_minutes :=
      chunkSize_le_remaining _ _ _ (by omega)
    simp only [driveChunk, drivingSum_append] at *
    omega

theorem driveLeg_drivingSum (s : DriverState) (m : ℚ) (t : ℤ) (label : String) :
    drivingSum (driveLeg s m t label).timeline ≤ drivingSum s.timeline + max 0 t := by
  have H := driveLegGo_pres label
    (fun z => drivingSum z.st.timeline + max 0 z.remaining_minutes
      ≤ drivingSum s.timeline + max 0 t)
    (fun a b hab hP => driveLegStep_drivingSum label _ a b hab hP)
    (legMeasure (LegState.mk s m t) + 1) (LegState.mk s m t) (le_refl _)
  unfold driveLeg
  omega

theorem drivingSum_append2 (l1 l2 : List TimelineEvent) :
    drivingSum (l1 ++ l2) = drivingSum l1 + drivingSum l2 := by
  simp only [drivingSum, List.foldl_append]
  rw [drivingSum_go]
  rfl

theorem insertOnDutyStop_drivingSum (s : DriverState) (d : ℤ) (k : StopKind)
    (label : String) (la ln : ℚ) :
    drivingSum (insertOnDutyStop s d k label la ln).timeline = drivingSum s.timeline := by
  simp only [insertOnDutyStop, insertReset]
  split_ifs <;> simp [drivingSum_append2, drivingSum]

theorem tailFill_drivingSum (s : DriverState) :
    drivingSum (tailFill s).timeline = drivingSum s.timeline := by
  simp only [tailFill]
  split_ifs <;> simp [drivingSum_append2, drivingSum]

theorem pipeline_drivingSum (s0 : DriverState) (m1 : ℚ) (t1 : ℤ) (m2 : ℚ) (t2 : ℤ)
    (pl dl : String) (pc dc : ℚ × ℚ) :
    drivingSum (tailFill (insertOnDutyStop (driveLeg (insertOnDutyStop
        (driveLeg s0 m1 t1 "En route to pickup") PICKUP_DURATION StopKind.PICKUP pl pc.1 pc.2)
        m2 t2 "En route to dropoff")
        DROPOFF_DURATION StopKind.DROPOFF dl dc.1 dc.2)).timeline
      ≤ drivingSum s0.timeline + max 0 t1 + max 0 t2 := by
  rw [tailFill_drivingSum, insertOnDutyStop_drivingSum]
  have H2 := driveLeg_drivingSum (insertOnDutyStop
    (driveLeg s0 m1 t1 "En route to pickup") PICKUP_DURATION StopKind.PICKUP pl pc.1 pc.2)
    m2 t2 "En route to dropoff"
  rw [insertOnDutyStop_drivingSum] at H2
  have H1 := driveLeg_drivingSum s0 m1 t1 "En route to pickup"
  omega

theorem pyInt_nonneg (q : ℚ) (h : 0 ≤ q) : 0 ≤ pyInt q := by
  unfold pyInt
  rw [if_pos h]
  exact Int.floor_nonneg.mpr h

theorem pyInt_le_of_le (q : ℚ) (z : ℤ) (h0 : 0 ≤ q) (h : q ≤ (z : ℚ)) : pyInt q ≤ z := by
  unfold pyInt
  rw [if_pos h0]
  calc ⌊q⌋ ≤ ⌊(z : ℚ)⌋ := Int.floor_le_floor h
    _ = z := Int.floor_intCast z

/-- C4 (amended): when no per-leg overrides are supplied, the fallback
split is `leg1 = int(total_drive_minutes * 0.30)` and
`leg2 = total_drive_minutes − leg1`, and the total duration of all
`DRIVING` timeline events is at most `total_drive_minutes`.  (With
overrides, the legs' minutes replace `total_drive_minutes` as the budget
and the claimed bound can fail — see the counterexample.) -/
theorem computePlan_driving_le_total (today : ℤ) (tm : ℚ) (tdm : ℤ) (ch : ℚ)
    (pl dl : String) (pc dc : ℚ × ℚ) (sd : Option ℤ) (htdm : 0 ≤ tdm) :
    drivingSum (computePlan today tm tdm ch pl dl pc dc sd none none none none).timeline
      ≤ tdm := by
  rw [computePlan_timeline_eq]
  have hfl : drivingSum (finalState tm tdm ch pl dl pc dc none none none none).timeline
      = drivingSum (tailFill (insertOnDutyStop (driveLeg (insertOnDutyStop
        (driveLeg (DriverState.mk 0 0 0 0 (initialCycleMinutes ch) 0 [] [])
          (tm * (3 / 10)) (pyInt ((tdm : ℚ) * (3 / 10))) "En route to pickup")
        PICKUP_DURATION StopKind.PICKUP pl pc.1 pc.2)
        (tm - tm * (3 / 10)) (tdm - pyInt ((tdm : ℚ) * (3 / 10))) "En route to dropoff")
        DROPOFF_DURATION StopKind.DROPOFF dl dc.1 dc.2)).timeline := rfl
  rw [hfl]
  have H := pipeline_drivingSum (DriverState.mk 0 0 0 0 (initialCycleMinutes ch) 0 [] [])
    (tm * (3 / 10)) (pyInt ((tdm : ℚ) * (3 / 10)))
    (tm - tm * (3 / 10)) (tdm - pyInt ((tdm : ℚ) * (3 / 10))) pl dl pc dc
  have hq0 : (0 : ℚ) ≤ (tdm : ℚ) * (3 / 10) :=
    mul_nonneg (by exact_mod_cast htdm) (by norm_num)
  have h1 : 0 ≤ pyInt ((tdm : ℚ) * (3 / 10)) := pyInt_nonneg _ hq0
  have h2 : pyInt ((tdm : ℚ) * (3 / 10)) ≤ tdm := by
    refine pyInt_le_of_le _ _ hq0 ?_
    calc (tdm : ℚ) * (3 / 10) ≤ (tdm : ℚ) * 1 :=
      mul_le_mul_of_nonneg_left (by norm_num) (by exact_mod_cast htdm)
    _ = (tdm : ℚ) := mul_one _
  have h0 : drivingSum (DriverState.mk 0 0 0 0 (initialCycleMinutes ch) 0 [] []).timeline
      = 0 := rfl
  omega

-- ── Helpers for concrete executions and date extraction ──────────────

theorem driveLeg_nonpos (s : DriverState) (m : ℚ) (t : ℤ) (label : String) (h : t ≤ 0) :
    driveLeg s m t label = s := by
  have hs : driveLegStep label (LegState.mk s m t) = none := by
    unfold driveLegStep
    rw [if_pos h]
  unfold driveLeg
  simp only [driveLegGo]
  rw [hs]

theorem driveLegGo_eq_self (label : String) (n : ℕ) (y : LegState)
    (h : driveLegStep label y = none) : driveLegGo label n y = y := by
  cases n with
  | zero => rfl
  | succ n =>
    simp only [driveLegGo]
    rw [h]

theorem buildDailySheets_dates (tl : List TimelineEvent) (sdate : ℤ) (h : tl ≠ []) :
    (buildDailySheets tl sdate).map (fun sh => sh.date)
      = (List.range ((⌈(timelineEnd 0 tl : ℚ) / (MINUTES_IN_DAY : ℚ)⌉).toNat)).map
        (fun (i : ℕ) => sdate + (i : ℤ)) := by
  simp only [buildDailySheets]
  rw [if_neg h]
  rw [List.map_map]
  rfl

-- ── C2: behaviour when the 70-hour cycle is exhausted ────────────────

/-- C2 counterexample: with `cycle_used_hours = 70` and
`total_drive_minutes = 0` the engine emits no driving, so
`remaining_drive_minutes = max(0, 0) = 0` and the code reports
`trip_completed = true` — the claim asserts it should be false for every
input with `cycle_used_hours ≥ 70`, including `total_drive_minutes = 0`. -/
theorem computePlan_cycle70_tdm0_completed :
    (computePlan 0 0 0 70 "" "" (0, 0) (0, 0) none none none none none).trip_completed
      = true := by
  have h0 : CYCLE_LIMIT ≤ initialCycleMinutes 70 := by
    rw [initialCycleMinutes, pyInt, if_pos (by norm_num), CYCLE_LIMIT]
    exact Int.le_floor.mpr (by norm_num)
  have hnd : (finalState 0 0 70 "" "" (0, 0) (0, 0) none none none none).timeline.all
      (fun e => !(decide (e.status = Status.DRIVING))) = true :=
    pipeline_cycle_no_driving (DriverState.mk 0 0 0 0 (initialCycleMinutes 70) 0 [] [])
      h0 rfl _ _ _ _ "" "" (0, 0) (0, 0)
  have hzero : drivingSum (finalState 0 0 70 "" "" (0, 0) (0, 0) none none none none).timeline
      = 0 := drivingSum_zero_of_no_driving _ hnd
  show decide (max 0 ((0 : ℤ) - drivingSum
    (finalState 0 0 70 "" "" (0, 0) (0, 0) none none none none).timeline) ≤ 0) = true
  rw [hzero]
  decide

theorem computePlan_cycle_exhausted_witness :
    (computePlan 0 0 5 70 "" "" (0, 0) (0, 0) none none none none none).timeline.all
      (fun e => !(decide (e.status = Status.DRIVING))) = true ∧
    (computePlan 0 0 5 70 "" "" (0, 0) (0, 0) none none none none
      none).remaining_drive_minutes = 5 ∧
    (computePlan 0 0 5 70 "" "" (0, 0) (0, 0) none none none none none).trip_completed
      = false := by
  obtain ⟨h1, h2, h3⟩ := computePlan_cycle_exhausted 0 0 5 70 "" "" (0, 0) (0, 0)
    none none none none none (by norm_num) (by norm_num)
  exact ⟨h1, h2, h3 (by norm_num)⟩

-- ── C4: the driving budget claim and its override counterexample ─────

/-- C4 counterexample: with `total_drive_minutes = 0` but per-leg
overrides `leg1 = (0 miles, 10 minutes)`, `leg2 = (0, 0)`, the engine
drives the 10 override minutes, so the total `DRIVING` duration (10)
exceeds `total_drive_minutes` (0). -/
theorem computePlan_override_exceeds_total :
    ¬ (drivingSum (computePlan 0 0 0 0 "" "" (0, 0) (0, 0) none
        (some 0) (some 10) (some 0) (some 0)).timeline ≤ 0) := by
  have hinit : initialCycleMinutes 0 = 0 := by
    rw [initialCycleMinutes, pyInt, if_pos (by norm_num : (0 : ℚ) ≤ 0 * 60)]
    norm_num
  have hstep1 : driveLegStep "En route to pickup"
      (LegState.mk (DriverState.mk 0 0 0 0 0 0 [] []) 0 10)
      = some (LegState.mk (DriverState.mk 10 10 10 10 10 0
          [TimelineEvent.mk 0 10 Status.DRIVING "En route to pickup" 0] []) 0 0) := by
    norm_num [driveLegStep, chunkSize, maxDrive0, speedOf, minutesUntilFuel, chunkMilesOf,
      driveChunk, DRIVE_LIMIT, WINDOW_LIMIT, BREAK_TRIGGER, CYCLE_LIMIT, FUEL_INTERVAL_MILES,
      AVG_SPEED_MPH]
  have hstop : driveLegStep "En route to pickup"
      (LegState.mk (DriverState.mk 10 10 10 10 10 0
        [TimelineEvent.mk 0 10 Status.DRIVING "En route to pickup" 0] []) 0 0) = none := by
    unfold driveLegStep
    rw [if_pos le_rfl]
  have hgo : driveLegGo "En route to pickup"
      (legMeasure (LegState.mk (DriverState.mk 0 0 0 0 0 0 [] []) 0 10) + 1)
      (LegState.mk (DriverState.mk 0 0 0 0 0 0 [] []) 0 10)
      = LegState.mk (DriverState.mk 10 10 10 10 10 0
          [TimelineEvent.mk 0 10 Status.DRIVING "En route to pickup" 0] []) 0 0 := by
    simp only [driveLegGo]
    rw [hstep1]
    show driveLegGo "En route to pickup"
      (legMeasure (LegState.mk (DriverState.mk 0 0 0 0 0 0 [] []) 0 10))
      (LegState.mk (DriverState.mk 10 10 10 10 10 0
        [TimelineEvent.mk 0 10 Status.DRIVING "En route to pickup" 0] []) 0 0)
      = LegState.mk (DriverState.mk 10 10 10 10 10 0
          [TimelineEvent.mk 0 10 Status.DRIVING "En route to pickup" 0] []) 0 0
    exact driveLegGo_eq_self _ _ _ hstop
  have hleg1 : driveLeg (DriverState.mk 0 0 0 0 0 0 [] []) 0 10 "En route to pickup"
      = DriverState.mk 10 10 10 10 10 0
          [TimelineEvent.mk 0 10 Status.DRIVING "En route to pickup" 0] [] := by
    unfold driveLeg
    rw [hgo]
  have h2 : driveLeg (insertOnDutyStop (driveLeg (DriverState.mk 0 0 0 0 0 0 [] []) 0 10
        "En route to pickup") PICKUP_DURATION StopKind.PICKUP "" 0 0) 0 0 "En route to dropoff"
      = insertOnDutyStop (driveLeg (DriverState.mk 0 0 0 0 0 0 [] []) 0 10
        "En route to pickup") PICKUP_DURATION StopKind.PICKUP "" 0 0 :=
    driveLeg_nonpos _ _ _ _ le_rfl
  have hfl : (computePlan 0 0 0 0 "" "" (0, 0) (0, 0) none
        (some 0) (some 10) (some 0) (some 0)).timeline
      = (tailFill (insertOnDutyStop (driveLeg (insertOnDutyStop
          (driveLeg (DriverState.mk 0 0 0 0 (initialCycleMinutes 0) 0 [] []) 0 10
            "En route to pickup")
          PICKUP_DURATION StopKind.PICKUP "" 0 0)
          0 0 "En route to dropoff") DROPOFF_DURATION StopKind.DROPOFF "" 0 0)).timeline := rfl
  rw [hfl, hinit]
  rw [tailFill_drivingSum, insertOnDutyStop_drivingSum, h2, insertOnDutyStop_drivingSum, hleg1]
  norm_num [drivingSum]

theorem computePlan_driving_le_total_witness :
    drivingSum (computePlan 0 0 3 0 "" "" (0, 0) (0, 0) none none none none none).timeline
      ≤ 3 :=
  computePlan_driving_le_total 0 0 3 0 "" "" (0, 0) (0, 0) none (by norm_num)

-- ── C3: the cycle-hours conversion ───────────────────────────────────

/-- C3 counterexample: at `cycle_used_hours = 1.995` the code initializes
`cycle_minutes = int(1.995 * 60) = int(119.7) = 119` (truncation), while
the claimed round-to-nearest conversion (`specCycleMinutes`, modelled from
the spec) gives `round(119.7) = 120`. -/
theorem initialCycleMinutes_cex :
    initialCycleMinutes (1995 / 1000) = 119 ∧ specCycleMinutes (1995 / 1000) = 120 := by
  constructor
  · rw [initialCycleMinutes, pyInt, if_pos (by norm_num), Int.floor_eq_iff]
    norm_num
  · rw [specCycleMinutes, round_eq, Int.floor_eq_iff]
    norm_num

/-- C3 (amended): `compute_plan` initializes the driver state's
`cycle_minutes` to `int(cycle_used_hours * 60)`, i.e. truncation toward
zero, which on the valid domain `cycle_used_hours ≥ 0` is the floor
`⌊cycle_used_hours * 60⌋` — not rounding to the nearest integer minute. -/
theorem initialCycleMinutes_truncates (q : ℚ) (h : 0 ≤ q) :
    initialCycleMinutes q = ⌊q * 60⌋ := by
  rw [initialCycleMinutes, pyInt, if_pos (mul_nonneg h (by norm_num))]

theorem initialCycleMinutes_truncates_witness :
    initialCycleMinutes (1995 / 1000) = ⌊(1995 / 1000 : ℚ) * 60⌋ :=
  initialCycleMinutes_truncates _ (by norm_num)

-- ── C9: termination of the leg loop ──────────────────────────────────

/-- C9: `compute_plan` terminates on every input: each iteration of the
leg-driving loop either emits a driving chunk of at least 1 minute
(strictly decreasing the leg's remaining minutes), or inserts a stop that
clears its own trigger condition, or aborts the leg on cycle exhaustion —
formally, `legMeasure` strictly decreases at every `some` step of
`driveLegStep` (first conjunct), and with `legMeasure + 1` units of fuel
the iteration reaches a genuine fixpoint where `driveLegStep` returns
`none` (second conjunct), so `driveLeg` computes the exact result of the
unbounded Python `while` loop in finitely many steps. -/
theorem driveLeg_terminates (label : String) (x : LegState) :
    (∀ y : LegState, driveLegStep label x = some y → legMeasure y < legMeasure x) ∧
    driveLegStep label (driveLegGo label (legMeasure x + 1) x) = none :=
  ⟨fun y hy => driveLegStep_decreases label x y hy,
    driveLegGo_fixpoint label (legMeasure x + 1) x (by omega)⟩

theorem driveLeg_terminates_witness :
    legMeasure sampleLegStateNext < legMeasure sampleLegState ∧
    driveLegStep "" (driveLegGo "" (legMeasure sampleLegState + 1) sampleLegState) = none := by
  have hstep : driveLegStep "" sampleLegState = some sampleLegStateNext := by
    norm_num [driveLegStep, chunkSize, maxDrive0, speedOf, minutesUntilFuel, chunkMilesOf,
      driveChunk, sampleLegState, sampleLegStateNext, DRIVE_LIMIT, WINDOW_LIMIT, BREAK_TRIGGER,
      CYCLE_LIMIT, FUEL_INTERVAL_MILES, AVG_SPEED_MPH]
  exact ⟨(driveLeg_terminates "" sampleLegState).1 sampleLegStateNext hstep,
    (driveLeg_terminates "" sampleLegState).2⟩

-- ── C10: determinism ─────────────────────────────────────────────────

/-- C10 (amended): when `start_date` is supplied (not None), two calls of
`compute_plan` with identical inputs produce structurally equal outputs,
with no dependence on the ambient clock (`today`), I/O or randomness; when
`start_date` is None the output does depend on `date.today()` (see the
counterexample). -/
theorem computePlan_deterministic (t1 t2 : ℤ) (tm : ℚ) (tdm : ℤ) (ch : ℚ)
    (pl dl : String) (pc dc : ℚ × ℚ) (d : ℤ) (l1m : Option ℚ) (l1t : Option ℤ)
    (l2m : Option ℚ) (l2t : Option ℤ) :
    computePlan t1 tm tdm ch pl dl pc dc (some d) l1m l1t l2m l2t
      = computePlan t2 tm tdm ch pl dl pc dc (some d) l1m l1t l2m l2t := rfl

/-- C10 counterexample: with `start_date = None`, `compute_plan` falls
back to `date.today()` (modelled by the `today` parameter), so two calls
with identical parameters made on different days return structurally
different outputs (their day sheets carry different dates). -/
theorem computePlan_today_dependent :
    computePlan 0 0 0 0 "" "" (0, 0) (0, 0) none none none none none
      ≠ computePlan 1 0 0 0 "" "" (0, 0) (0, 0) none none none none none := by
  intro heq
  have hfacts := finalState_facts 0 0 0 "" "" (0, 0) (0, 0) none none none none
  have hne := hfacts.2.2.2.2.2.1
  have hTpos : 0 < timelineEnd 0 (finalState 0 0 0 "" "" (0, 0) (0, 0)
      none none none none).timeline := by
    rw [hfacts.2.1]
    exact hfacts.2.2.2.2.2.2.2
  have h1 : (computePlan 0 0 0 0 "" "" (0, 0) (0, 0) none none none none
        none).daily_sheets.map (fun sh => sh.date)
      = (computePlan 1 0 0 0 "" "" (0, 0) (0, 0) none none none none
        none).daily_sheets.map (fun sh => sh.date) := by rw [heq]
  have hds0 : (computePlan 0 0 0 0 "" "" (0, 0) (0, 0) none none none none none).daily_sheets
      = buildDailySheets (finalState 0 0 0 "" "" (0, 0) (0, 0) none none none none).timeline 0 :=
    rfl
  have hds1 : (computePlan 1 0 0 0 "" "" (0, 0) (0, 0) none none none none none).daily_sheets
      = buildDailySheets (finalState 0 0 0 "" "" (0, 0) (0, 0) none none none none).timeline 1 :=
    rfl
  rw [hds0, hds1, buildDailySheets_dates _ _ hne, buildDailySheets_dates _ _ hne] at h1
  have hn : 1 ≤ (⌈(timelineEnd 0 (finalState 0 0 0 "" "" (0, 0) (0, 0)
      none none none none).timeline : ℚ) / (MINUTES_IN_DAY : ℚ)⌉).toNat := by
    have hq : (0 : ℚ) < (timelineEnd 0 (finalState 0 0 0 "" "" (0, 0) (0, 0)
        none none none none).timeline : ℚ) / (MINUTES_IN_DAY : ℚ) := by
      apply div_pos
      · exact_mod_cast hTpos
      · norm_num [MINUTES_IN_DAY]
    have h2 := Int.ceil_pos.mpr hq
    omega
  obtain ⟨m, hm⟩ := Nat.exists_eq_add_of_le hn
  rw [hm, show 1 + m = m + 1 from by omega, List.range_succ_eq_map] at h1
  simp at h1
